import Mathlib

/-!
Shallow embedding of `src/battlesnake.rs` (ndsquared-rustapi): the game-state
model, the `advance`/`undo` transition pair, derived metadata, geometry
helpers, the A* shortest-path query, the territory flood fill, the evaluator
feature extraction and the search initialisation, together with proofs about
the claims of the specification.

Modelling conventions:
* Rust `i32`/`u32` become `Int`/`Nat` (no arithmetic here ever approaches the
  32-bit range, and the source relies on no wrap-around).
* `HashSet<Coord>` becomes `Finset Coord`; `Vec`/`VecDeque` become `List`
  (front of the deque = head of the list).
* `HashMap<K,V>` becomes an association list `List (K × V)` whose lookup
  returns the most recent insertion (insertions prepend), matching the
  overwrite semantics of `HashMap::insert`; the two maps that the elimination
  phase iterates over (`snake_heads`, `snake_bodies`) use an insert that also
  drops the shadowed entry so that iteration sees each key once, exactly as a
  `HashMap` does.
* The preallocated 1000-frame undo journal indexed by `undo_index` is
  modelled as a stack (`List UndoFrame`); `advance` pushes one frame and
  `undo` pops one, which is the only access pattern the source uses.
* Rust panics (`unwrap` on empty collections, journal underflow) are total
  functions with explicitly marked defaults here; every theorem that could
  meet such a default carries hypotheses ruling the situation out.
* Loops that terminate by queue exhaustion (`A*`, the territory BFS) take an
  explicit fuel parameter.
-/

/-- Association-list lookup, the view of `HashMap::get`: the first entry with
the given key wins (insertions prepend, so the first match is the newest). -/
def alookup [DecidableEq α] (k : α) : List (α × β) → Option β
  | [] => none
  | (k', v) :: rest => if k' = k then some v else alookup k rest

/-- `HashMap::insert` for maps that are later iterated over: the new entry
replaces any entry with the same key. -/
def ainsert [DecidableEq α] (k : α) (v : β) (l : List (α × β)) : List (α × β) :=
  (k, v) :: l.filter (fun p => ¬ p.1 = k)

/-- `HashMap::get_mut` followed by an in-place update: rewrites the first
entry with the given key, leaves the map unchanged if the key is absent
(the source `unwrap`s there, so absence never happens on executed paths). -/
def amodify [DecidableEq α] (k : α) (f : β → β) : List (α × β) → List (α × β)
  | [] => []
  | (k', v) :: rest => if k' = k then (k', f v) :: rest else (k', v) :: amodify k f rest

/-- `Coord` (src/battlesnake.rs:149-153): a pair of signed integers. -/
structure Coord where
  x : Int
  y : Int
deriving DecidableEq, Repr

/-- `Coord::manhattan_distance` (src/battlesnake.rs:156-158). -/
def Coord.manhattan_distance (a b : Coord) : Int :=
  |a.x - b.x| + |a.y - b.y|

/-- `Direction` (src/battlesnake.rs:80-87); the `EnumIter` derive iterates in
declaration order Up, Down, Left, Right. -/
inductive Direction where
  | Up
  | Down
  | Left
  | Right
deriving DecidableEq, Repr, Fintype

/-- `Direction::iter()` in declaration order. -/
def directionList : List Direction :=
  [Direction.Up, Direction.Down, Direction.Left, Direction.Right]

/-- `GameMode` (src/battlesnake.rs:48-57). -/
inductive GameMode where
  | Standard
  | Solo
  | Royale
  | Squad
  | Constrictor
  | Wrapped
deriving DecidableEq, Repr

/-- `Battlesnake` (src/battlesnake.rs:230-254), restricted to the fields the
core logic reads or writes; the purely cosmetic fields (`name`, `latency`,
`shout`, `squad`, `customizations`) are carried verbatim by the source and
dropped here. -/
@[ext]
structure Battlesnake where
  id : String
  health : Int
  body : List Coord
  head : Coord
  length : Nat
  eliminated : Bool
deriving DecidableEq, Repr

/-- `Board` (src/battlesnake.rs:179-206). The first five fields are the
primary snapshot, the last five are the derived indexes rebuilt by
`compute_metadata`. -/
structure Board where
  height : Int
  width : Int
  food : Finset Coord
  hazards : List Coord
  snakes : List Battlesnake
  obstacles : Finset Coord
  hazard_damage : List (Coord × Int)
  stomps : Finset Coord
  avoids : Finset Coord
  snake_indexes : List (String × Nat)

/-- `Board::get_snake` (src/battlesnake.rs:209-215). -/
def Board.get_snake (b : Board) (id : String) : Option Battlesnake :=
  match alookup id b.snake_indexes with
  | none => none
  | some idx => b.snakes.get? idx

/-- `Board::center` (src/battlesnake.rs:216-221).  Note that the source
computes the y component from the board *width*. -/
def Board.center (b : Board) : Coord :=
  { x := b.width.tdiv 2, y := b.width.tdiv 2 }

/-- One frame of `UndoInfo` (src/battlesnake.rs:256-262): everything
`advance` journals for one call. -/
structure UndoFrame where
  previous_tails : List (String × Coord)
  previous_health : List (String × Int)
  eaten_food : Finset Coord
  eliminated_snakes : List Battlesnake

/-- `GameState` (src/battlesnake.rs:275-290).  `mode` is
`game.ruleset.name` and `hazard_damage_per_turn` is
`game.ruleset.settings.hazard_damage_per_turn`; the other `Game` fields are
never read by the core logic. -/
structure GameState where
  mode : GameMode
  hazard_damage_per_turn : Int
  turn : Nat
  board : Board
  you : Battlesnake
  undo_stack : List UndoFrame

/-- `in_bounds` (src/battlesnake.rs:292-294). -/
def in_bounds (c : Coord) (width height : Int) : Prop :=
  0 ≤ c.x ∧ 0 ≤ c.y ∧ c.x < width ∧ c.y < height

instance (c : Coord) (w h : Int) : Decidable (in_bounds c w h) := by
  unfold in_bounds; infer_instance

/-- `GameState::adjacent_coord` (src/battlesnake.rs:449-473): raw offset, with
both components reduced by the Euclidean remainder in `Wrapped` mode only. -/
def adjacent_coord (s : GameState) (c : Coord) (d : Direction) : Coord :=
  let x := c.x
  let y := c.y
  let (x, y) :=
    match d with
    | Direction.Up => (x, y + 1)
    | Direction.Down => (x, y - 1)
    | Direction.Left => (x - 1, y)
    | Direction.Right => (x + 1, y)
  match s.mode with
  | GameMode.Wrapped => { x := x % s.board.width, y := y % s.board.height : Coord }
  | _ => { x := x, y := y : Coord }

/-- `GameState::direction_to` (src/battlesnake.rs:434-448): unconditionally
reduces by the Euclidean remainder, in every mode. -/
def direction_to (s : GameState) (a b : Coord) : Option Direction :=
  if (a.x + 1) % s.board.width = b.x ∧ a.y = b.y then some Direction.Right
  else if (a.x - 1) % s.board.width = b.x ∧ a.y = b.y then some Direction.Left
  else if a.x = b.x ∧ (a.y + 1) % s.board.height = b.y then some Direction.Up
  else if a.x = b.x ∧ (a.y - 1) % s.board.height = b.y then some Direction.Down
  else none

/-- `GameState::adjacent_moves` (src/battlesnake.rs:474-480). -/
def adjacent_moves (s : GameState) (c : Coord) : List (Coord × Direction) :=
  directionList.map (fun d => (adjacent_coord s c d, d))

/-- `GameState::valid_at` (src/battlesnake.rs:519-521). -/
def valid_at (s : GameState) (c : Coord) : Prop :=
  in_bounds c s.board.width s.board.height

instance (s : GameState) (c : Coord) : Decidable (valid_at s c) := by
  unfold valid_at; infer_instance

/-- `GameState::safe_at` (src/battlesnake.rs:522-524). -/
def safe_at (s : GameState) (c : Coord) : Prop :=
  c ∉ s.board.obstacles

instance (s : GameState) (c : Coord) : Decidable (safe_at s c) := by
  unfold safe_at; infer_instance

/-- `GameState::viable` (src/battlesnake.rs:525-527). -/
def viable (s : GameState) (c : Coord) : Prop :=
  valid_at s c ∧ safe_at s c

instance (s : GameState) (c : Coord) : Decidable (viable s c) := by
  unfold viable; infer_instance

/-!
`GameState::compute_metadata` (src/battlesnake.rs:532-575).  The source
builds all five derived indexes in one pass over the snakes followed by one
pass over the hazards; the per-index constructions are independent of each
other, so they are modelled as separate passes over the same lists.
-/

/-- The `snake_indexes` map built by the snake loop: `insert(id, i)` for each
snake in order (prepending, so a duplicated id resolves to its last index,
exactly as `HashMap::insert` overwrites). -/
def snakeIndexList (snakes : List Battlesnake) : List (String × Nat) :=
  snakes.enum.foldl (fun acc p => (p.2.id, p.1) :: acc) []

/-- The body-derived obstacles: every body cell whose index is not the last
(`i != snake.body.len() - 1`, src/battlesnake.rs:540-543). -/
def bodyObstacles (snakes : List Battlesnake) : Finset Coord :=
  snakes.foldl (fun acc sn => acc ∪ sn.body.dropLast.toFinset) ∅

/-- The `stomps`/`avoids` contribution of the snake loop
(src/battlesnake.rs:544-554): for every snake other than the controlled one,
the cells adjacent to the body cell at index 1 are added to `avoids` when the
controlled snake is not strictly longer, and to `stomps` otherwise. -/
def stompsAvoids (s : GameState) : Finset Coord × Finset Coord :=
  s.board.snakes.foldl
    (fun acc sn =>
      if sn.id = s.you.id then acc
      else
        match sn.body.get? 1 with
        | none => acc
        | some c =>
          if s.you.length ≤ sn.length then
            (acc.1, acc.2 ∪ ((adjacent_moves s c).map Prod.fst).toFinset)
          else
            (acc.1 ∪ ((adjacent_moves s c).map Prod.fst).toFinset, acc.2))
    (∅, ∅)

/-- The hazard loop (src/battlesnake.rs:557-568): accumulates
`hazard_damage_per_turn` per occurrence of a cell in the hazard list, and
inserts the cell into `obstacles` whenever the running total reaches the
controlled snake's health. -/
def hazardsFold (dmg youHealth : Int) (hazards : List Coord)
    (start : List (Coord × Int) × Finset Coord) : List (Coord × Int) × Finset Coord :=
  hazards.foldl
    (fun acc c =>
      let total :=
        match alookup c acc.1 with
        | some d => d + dmg
        | none => dmg
      let m := (c, total) :: acc.1
      let obs := if youHealth ≤ total then insert c acc.2 else acc.2
      (m, obs))
    start

/-- `GameState::compute_metadata` (src/battlesnake.rs:532-575): rebuilds the
five derived `Board` indexes from the primary snapshot. -/
def computeMetadata (s : GameState) : GameState :=
  let sa := stompsAvoids s
  let hz := hazardsFold s.hazard_damage_per_turn s.you.health s.board.hazards
    ([], bodyObstacles s.board.snakes)
  { s with
    board := { s.board with
      snake_indexes := snakeIndexList s.board.snakes,
      obstacles := hz.2,
      hazard_damage := hz.1,
      stomps := sa.1,
      avoids := sa.2 } }

/-- `GameState::init` (src/battlesnake.rs:528-531): fresh undo journal plus
derived indexes. -/
def GameState.init (s : GameState) : GameState :=
  computeMetadata { s with undo_stack := [] }

/-!
`GameState::advance` (src/battlesnake.rs:297-398).
-/

/-- The tail popped at src/battlesnake.rs:319 after the new head was pushed:
the last element of `new_head :: body` (never absent, since the list is a
cons). -/
def poppedTail (nh : Coord) (sn : Battlesnake) : Coord :=
  (nh :: sn.body).getLastD nh

/-- The per-snake mutation of the move-application loop
(src/battlesnake.rs:317-336): push the new head, pop the tail, duplicate the
tail in constrictor mode or pay the per-turn health point otherwise, then
feed (health 100 plus an extra tail copy) or take hazard damage.  The
`getLastD` defaults stand for `unwrap` calls that can only panic when the
original body was empty. -/
def stepSnake (s : GameState) (nh : Coord) (sn : Battlesnake) : Battlesnake :=
  let b2 := (nh :: sn.body).dropLast
  let b3 := if s.mode = GameMode.Constrictor then b2 ++ [b2.getLastD nh] else b2
  let h1 := if s.mode = GameMode.Constrictor then sn.health else sn.health - 1
  let ate := nh ∈ s.board.food
  let b4 := if ate then b3 ++ [b3.getLastD nh] else b3
  let h2 :=
    if ate then 100
    else
      match alookup nh s.board.hazard_damage with
      | some d => h1 - d
      | none => h1
  { sn with head := nh, body := b4, health := h2, length := b4.length }

/-- The mutable accumulator of the move-application loop: the snake list
being updated in place, the journal entries, the eaten-food set and the
`snake_heads`/`snake_bodies` maps used later by the elimination pass. -/
structure MoveAcc where
  snakes : List Battlesnake
  prev_tails : List (String × Coord)
  prev_health : List (String × Int)
  eaten : Finset Coord
  snake_heads : List (String × (Coord × Nat))
  snake_bodies : List (String × Finset Coord)

/-- The move-application loop (src/battlesnake.rs:306-345): for each
`(owner, new_head)` pair, look the owner up in `snake_indexes`, skip the move
if the owner or its index is unknown, and otherwise mutate the snake at that
index and record the journal entries. -/
def applyMovesGo (s : GameState) : List (String × Coord) → MoveAcc → MoveAcc
  | [], acc => acc
  | (owner, nh) :: rest, acc =>
    match alookup owner s.board.snake_indexes with
    | none => applyMovesGo s rest acc
    | some idx =>
      match acc.snakes.get? idx with
      | none => applyMovesGo s rest acc
      | some sn =>
        let sn' := stepSnake s nh sn
        applyMovesGo s rest
          { snakes := acc.snakes.set idx sn',
            prev_tails := (sn.id, poppedTail nh sn) :: acc.prev_tails,
            prev_health := (sn.id, sn.health) :: acc.prev_health,
            eaten := if nh ∈ s.board.food then insert nh acc.eaten else acc.eaten,
            snake_heads := ainsert sn.id (sn'.head, sn'.length) acc.snake_heads,
            snake_bodies := ainsert sn.id sn'.body.tail.toFinset acc.snake_bodies }

/-- The elimination pass for one snake (src/battlesnake.rs:356-381): a snake
becomes eliminated when its health is not positive, its head is out of
bounds, it loses (or ties) a head-to-head against a different moved snake, or
its head lies on the body-minus-head of any moved snake. -/
def markEliminated (width height : Int) (heads : List (String × (Coord × Nat)))
    (bodies : List (String × Finset Coord)) (sn : Battlesnake) : Battlesnake :=
  let dead :=
    sn.eliminated ||
    decide (sn.health ≤ 0) ||
    decide (¬ in_bounds sn.head width height) ||
    heads.any (fun p => decide (¬ p.1 = sn.id) && decide (sn.head = p.2.1) && decide (sn.length ≤ p.2.2)) ||
    bodies.any (fun p => decide (sn.head ∈ p.2))
  { sn with eliminated := dead }

/-- `GameState::advance` (src/battlesnake.rs:297-398): apply the moves,
remove the eaten food, mark and drop eliminated snakes, refresh the
controlled-snake projection, push the undo frame and rebuild the derived
indexes. -/
def advance (s : GameState) (moves : List (String × Coord)) : GameState :=
  let acc := applyMovesGo s moves
    { snakes := s.board.snakes, prev_tails := [], prev_health := [],
      eaten := ∅, snake_heads := [], snake_bodies := [] }
  let snakes2 := acc.snakes.map
    (markEliminated s.board.width s.board.height acc.snake_heads acc.snake_bodies)
  let you' := (snakes2.find? (fun sn => sn.id = s.you.id)).getD s.you
  let elim := snakes2.filter (fun sn => sn.eliminated)
  let live := snakes2.filter (fun sn => ¬ sn.eliminated)
  let frame : UndoFrame :=
    { previous_tails := acc.prev_tails, previous_health := acc.prev_health,
      eaten_food := acc.eaten, eliminated_snakes := elim }
  computeMetadata
    { s with
      board := { s.board with food := s.board.food \ acc.eaten, snakes := live },
      you := you',
      undo_stack := frame :: s.undo_stack }

/-!
`GameState::undo` (src/battlesnake.rs:399-433).
-/

/-- The per-snake restoration of `undo` (src/battlesnake.rs:410-431): clear
the eliminated flag, pop the head, pop the tail again if the popped head lies
on the (already re-inserted) food, re-append the journalled tail and restore
the journalled health.  The `headD`/`getD` defaults stand for `unwrap`s and
index panics that only occur on journal misuse. -/
def undoSnakeRestore (food : Finset Coord) (frame : UndoFrame) (sn : Battlesnake) :
    Battlesnake :=
  let popped := sn.body.headD sn.head
  let b1 := sn.body.tail
  let b2 := if popped ∈ food then b1.dropLast else b1
  let head' := b2.headD popped
  let b3 := b2 ++ [(alookup sn.id frame.previous_tails).getD popped]
  { sn with
    eliminated := false,
    head := head',
    body := b3,
    health := (alookup sn.id frame.previous_health).getD sn.health,
    length := b3.length }

/-- `GameState::undo` (src/battlesnake.rs:399-433): pop one journal frame,
re-append the eliminated snakes, re-insert the eaten food, reverse every
snake's move, refresh the controlled-snake projection and rebuild the derived
indexes.  On an empty journal the source underflows `undo_index`; here the
state is returned unchanged (the search keeps calls strictly LIFO-balanced).
-/
def undo (s : GameState) : GameState :=
  match s.undo_stack with
  | [] => s
  | frame :: rest =>
    let snakes0 := s.board.snakes ++ frame.eliminated_snakes
    let food' := s.board.food ∪ frame.eaten_food
    let snakes1 := snakes0.map (undoSnakeRestore food' frame)
    let you' := (snakes1.find? (fun sn => sn.id = s.you.id)).getD s.you
    computeMetadata
      { s with
        board := { s.board with food := food', snakes := snakes1 },
        you := you',
        undo_stack := rest }

/-- The joint move that assigns each live agent, in board order, the new head
`mv` chooses for it: the shape of every move list the search hands to
`advance` (one `(id, coord)` pair per live snake). -/
def boardMoves (s : GameState) (mv : Battlesnake → Coord) : List (String × Coord) :=
  s.board.snakes.map (fun sn => (sn.id, mv sn))

/-!
`GameState::random_valid_move`, `Score`, `Search::new`
(src/battlesnake.rs:576-600, 722-768, 786-817).
-/

/-- `GameState::random_valid_move` (src/battlesnake.rs:576-600).  The random
draw from a non-empty candidate list is abstracted by the `pick` parameter;
when both candidate lists are empty the result is the deterministic default
`((-1, -1), Down)`, with no randomness involved. -/
def random_valid_move (s : GameState)
    (pick : List (Coord × Direction) → Coord × Direction) (coord : Coord) :
    Coord × Direction :=
  let valid_moves := (adjacent_moves s coord).filter (fun p => decide (viable s p.1))
  let food_moves := valid_moves.filter (fun p => decide (p.1 ∈ s.board.food))
  if food_moves.length > 0 then pick food_moves
  else if valid_moves.length > 0 then pick valid_moves
  else ({ x := -1, y := -1 }, Direction.Down)

/-- `Score` (src/battlesnake.rs:722-734). -/
structure Score where
  min : Bool
  max : Bool
  center_dist : Int
  tail_dist : Int
  food_dist : Int
  length : Int
  snake_stomps : Int
  snake_avoids : Int
  board_control : Int
  survival : Int
deriving DecidableEq, Repr

/-- `Score::new` (src/battlesnake.rs:737-750). -/
def Score.new : Score :=
  { min := false, max := false, center_dist := 0, tail_dist := 0, food_dist := 0,
    length := 0, snake_stomps := 0, snake_avoids := 0, board_control := 0,
    survival := 0 }

/-- `Score::sum` (src/battlesnake.rs:751-767); `i32::MIN`/`i32::MAX` are the
32-bit extremes. -/
def Score.sum (sc : Score) : Int :=
  if sc.min then -2147483648
  else if sc.max then 2147483647
  else sc.center_dist + sc.tail_dist + sc.food_dist + sc.length +
    sc.snake_stomps + sc.snake_avoids + sc.board_control + sc.survival

/-- Which evaluator `Search::new` installs (a function pointer in the source;
a tag here, the evaluators live at the bottom of the file). -/
inductive EvalFn where
  | territoryEval
  | basicEval
deriving DecidableEq, Repr

/-- `Search` (src/battlesnake.rs:770-784), restricted to the fields that
`Search::new` populates from the game state; the wall-clock bookkeeping
(`search_time`, timing via `Instant`) has no shallow embedding and the
remaining counters start at fixed constants. -/
structure Search where
  tree_depth : Nat
  move_depth : Int
  iteration_reached : Nat
  advances : Nat
  undos : Nat
  terminals : Nat
  best_direction : Direction
  best_score : Score
  best_pv : List Coord
  timeout : Nat
  snake_order : List String
  evaluate_fn : EvalFn

/-- `Search::new` (src/battlesnake.rs:786-817): minimum-saturated initial
best score, controlled snake first in the move order, `basic_evaluate` for
more than four snakes, and the initial best direction drawn by
`random_valid_move` from the controlled snake's head. -/
def Search.new (s : GameState)
    (pick : List (Coord × Direction) → Coord × Direction) : Search :=
  let move_order := s.you.id ::
    (s.board.snakes.filter (fun sn => ¬ sn.id = s.you.id)).map (fun sn => sn.id)
  let evaluate_fn := if s.board.snakes.length > 4 then EvalFn.basicEval
    else EvalFn.territoryEval
  { tree_depth := 0, move_depth := 0, iteration_reached := 1, advances := 0,
    undos := 0, terminals := 0,
    best_direction := (random_valid_move s pick s.you.head).2,
    best_score := { Score.new with min := true },
    best_pv := [], timeout := 425, snake_order := move_order,
    evaluate_fn := evaluate_fn }

/-!
`GameState::shortest_distance` (src/battlesnake.rs:601-636): A* over the
4-connected grid.
-/

/-- `PriorityCoord` (src/battlesnake.rs:161-177): the `Ord` instance is
reversed so the `BinaryHeap` pops the smallest priority first. -/
structure PriorityCoord where
  coord : Coord
  priority : Nat
deriving DecidableEq, Repr

/-- `BinaryHeap::pop` under the reversed ordering: removes an element of
minimal priority.  Among equal priorities the binary heap's choice is
unspecified; this model takes the earliest-pushed one. -/
def popMin : List PriorityCoord → Option (PriorityCoord × List PriorityCoord)
  | [] => none
  | p :: rest =>
    match popMin rest with
    | none => some (p, [])
    | some (q, rest') => if p.priority ≤ q.priority then some (p, rest) else some (q, p :: rest')

/-- The neighbour-relaxation step of the A* loop body
(src/battlesnake.rs:615-633) for a single adjacent cell. -/
def astarRelax (s : GameState) (endC coord : Coord)
    (st : List PriorityCoord × Finset Coord × List (Coord × Nat)) (adj : Coord) :
    List PriorityCoord × Finset Coord × List (Coord × Nat) :=
  let (nodes, visited, distances) := st
  if ¬ viable s adj then st
  else if adj ∈ visited then st
  else
    let new_distance := (alookup coord distances).getD 0 + 1
    match alookup adj distances with
    | some d =>
      if new_distance < d then
        (({ coord := adj,
            priority := (alookup coord distances).getD 0 +
              (adj.manhattan_distance endC).toNat } : PriorityCoord) :: nodes,
         insert adj visited, (adj, new_distance) :: distances)
      else st
    | none =>
      (({ coord := adj,
          priority := (alookup coord distances).getD 0 +
            (adj.manhattan_distance endC).toNat } : PriorityCoord) :: nodes,
       insert adj visited, (adj, new_distance) :: distances)

/-- The A* main loop (src/battlesnake.rs:611-634), with fuel standing in for
the implicit termination of the heap loop.  `distances[&coord]` at the return
is the lookup itself (always present for popped nodes). -/
def shortestDistanceLoop (s : GameState) (endC : Coord) :
    Nat → List PriorityCoord → Finset Coord → List (Coord × Nat) → Option Nat
  | 0, _, _, _ => none
  | fuel + 1, nodes, visited, distances =>
    match popMin nodes with
    | none => none
    | some (pc, rest) =>
      if pc.coord = endC then alookup pc.coord distances
      else
        let st := ((adjacent_moves s pc.coord).map Prod.fst).foldl
          (astarRelax s endC pc.coord) (rest, visited, distances)
        shortestDistanceLoop s endC fuel st.1 st.2.1 st.2.2

/-- `GameState::shortest_distance` (src/battlesnake.rs:601-636). -/
def shortest_distance (s : GameState) (fuel : Nat) (start endC : Coord) : Option Nat :=
  shortestDistanceLoop s endC fuel [{ coord := start, priority := 0 }] {start}
    [(start, 0)]

/-!
`GameState::compute_territory_info` (src/battlesnake.rs:649-719).
-/

/-- `TerritoryInfo` (src/battlesnake.rs:224-228). -/
structure TerritoryInfo where
  controlled_squares : List (String × Finset Coord)
  available_squares : Finset Coord

/-- The contested-cell scan of the territory BFS (src/battlesnake.rs:674-687):
the first neighbour of the candidate cell already visited by a *different*
owner at the *same* distance as the current node, if any, yields that owner.
-/
def findContested (visited : List (Coord × (String × Nat))) (owner : String)
    (distance : Nat) : List (Coord × Direction) → Option String
  | [] => none
  | (p, _) :: rest =>
    match alookup p visited with
    | some (po, vd) =>
      if ¬ po = owner ∧ vd = distance then some po
      else findContested visited owner distance rest
    | none => findContested visited owner distance rest

/-- One candidate cell of the territory BFS inner loop
(src/battlesnake.rs:664-694): skip non-viable or visited cells; on a
same-distance tie with another owner, remove the cell from that owner's set
and claim nothing; otherwise enqueue, visit and claim the cell. -/
def territoryStepAdj (s : GameState) (owner : String) (distance : Nat)
    (st : List (String × Nat × Coord) × List (Coord × (String × Nat)) ×
      List (String × Finset Coord))
    (adjp : Coord × Direction) :
    List (String × Nat × Coord) × List (Coord × (String × Nat)) ×
      List (String × Finset Coord) :=
  let (queue, visited, controlled) := st
  let adj := adjp.1
  if ¬ viable s adj then st
  else if (alookup adj visited).isSome then st
  else
    let new_distance := distance + 1
    match findContested visited owner distance (adjacent_moves s adj) with
    | some po => (queue, visited, amodify po (fun set => set.erase adj) controlled)
    | none =>
      (queue ++ [(owner, new_distance, adj)],
       (adj, (owner, new_distance)) :: visited,
       amodify owner (fun set => insert adj set) controlled)

/-- The territory BFS main loop (src/battlesnake.rs:663-695), fuel standing
in for queue exhaustion. -/
def territoryLoop (s : GameState) :
    Nat → List (String × Nat × Coord) → List (Coord × (String × Nat)) →
    List (String × Finset Coord) → List (String × Finset Coord)
  | 0, _, _, controlled => controlled
  | _ + 1, [], _, controlled => controlled
  | fuel + 1, (owner, distance, current) :: queue, visited, controlled =>
    let st := (adjacent_moves s current).foldl (territoryStepAdj s owner distance)
      (queue, visited, controlled)
    territoryLoop s fuel st.1 st.2.1 st.2.2

/-- The initialisation loop of the territory BFS (src/battlesnake.rs:654-662):
per snake, an empty controlled set, a queue entry and a visited entry for its
head, then the head claimed. -/
def territoryInit (snakes : List Battlesnake) :
    List (String × Nat × Coord) × List (Coord × (String × Nat)) ×
      List (String × Finset Coord) :=
  snakes.foldl
    (fun st sn =>
      let (queue, visited, controlled) := st
      let controlled := ainsert sn.id ∅ controlled
      let queue := queue ++ [(sn.id, 0, sn.head)]
      let visited := (sn.head, (sn.id, 0)) :: visited
      let controlled := amodify sn.id (fun set => insert sn.head set) controlled
      (queue, visited, controlled))
    ([], [], [])

/-- One candidate cell of the availability BFS (src/battlesnake.rs:701-713). -/
def availableStepAdj (s : GameState) (owner : String) (distance : Nat)
    (st : List (String × Nat × Coord) × List (Coord × (String × Nat)) × Finset Coord)
    (adjp : Coord × Direction) :
    List (String × Nat × Coord) × List (Coord × (String × Nat)) × Finset Coord :=
  let (queue, visited, available) := st
  let adj := adjp.1
  if ¬ viable s adj then st
  else if (alookup adj visited).isSome then st
  else
    let new_distance := distance + 1
    (queue ++ [(owner, new_distance, adj)], (adj, (owner, new_distance)) :: visited,
     insert adj available)

/-- The availability BFS main loop (src/battlesnake.rs:701-714); the queue
always carries the controlled snake's id. -/
def availableLoop (s : GameState) :
    Nat → List (String × Nat × Coord) → List (Coord × (String × Nat)) →
    Finset Coord → Finset Coord
  | 0, _, _, available => available
  | _ + 1, [], _, available => available
  | fuel + 1, (owner, distance, current) :: queue, visited, available =>
    let st := (adjacent_moves s current).foldl (availableStepAdj s owner distance)
      (queue, visited, available)
    availableLoop s fuel st.1 st.2.1 st.2.2

/-- `GameState::compute_territory_info` (src/battlesnake.rs:649-719). -/
def compute_territory_info (s : GameState) (fuel : Nat) : TerritoryInfo :=
  let init := territoryInit s.board.snakes
  let controlled := territoryLoop s fuel init.1 init.2.1 init.2.2
  let available := availableLoop s fuel [(s.you.id, 0, s.you.head)]
    [(s.you.head, (s.you.id, 0))] {s.you.head}
  { controlled_squares := controlled, available_squares := available }

/-!
`basic_evaluate` (src/battlesnake.rs:1048-1098).
-/

/-- Combine step of the food scan: the source's replacement condition
`food_option.unwrap() < food_distance` keeps the *largest* distance seen. -/
def optMax (a b : Option Int) : Option Int :=
  match a, b with
  | none, b => b
  | some x, none => some x
  | some x, some y => some (max x y)

instance : Std.Commutative optMax :=
  ⟨by intro a b; cases a <;> cases b <;> simp [optMax, max_comm]⟩

instance : Std.Associative optMax :=
  ⟨by intro a b c; cases a <;> cases b <;> cases c <;> simp [optMax, max_assoc]⟩

/-- The food scan of `basic_evaluate` (src/battlesnake.rs:1077-1083): the
largest Manhattan distance from the head to any food, a value independent of
the hash-set iteration order. -/
def basicFoodScan (head : Coord) (food : Finset Coord) : Option Int :=
  food.fold optMax none (fun f => some (head.manhattan_distance f))

/-- `basic_evaluate` (src/battlesnake.rs:1048-1098). -/
def basic_evaluate (s : GameState) (depth : Int) : Score :=
  if s.you.eliminated then { Score.new with min := true }
  else if ¬ s.mode = GameMode.Solo ∧ s.board.snakes.length = 1 then
    { Score.new with max := true }
  else
    let center_dist := -(s.you.head.manhattan_distance s.board.center) * 100
    let (snake_avoids, snake_stomps) :=
      if s.you.head ∈ s.board.avoids then ((-5000 : Int), (0 : Int))
      else if s.you.head ∈ s.board.stomps then (0, 5000)
      else (0, 0)
    let tail_dist :=
      -(s.you.head.manhattan_distance (s.you.body.getLastD s.you.head)) * 100
    let food_dist :=
      match basicFoodScan s.you.head s.board.food with
      | some fd => -fd * 100
      | none => if s.you.health < 20 then -100000 else 0
    { Score.new with
      center_dist := center_dist, snake_avoids := snake_avoids,
      snake_stomps := snake_stomps, tail_dist := tail_dist,
      food_dist := food_dist, length := (s.you.length : Int) * 10000,
      survival := depth * 10000 + s.you.health * 100 }

/-!
General lemmas about the association-list operations and small list facts.
-/

lemma alookup_eq_some_mem [DecidableEq α] {k : α} {v : β} {l : List (α × β)}
    (h : alookup k l = some v) : (k, v) ∈ l := by
  induction l with
  | nil => simp [alookup] at h
  | cons p rest ih =>
    obtain ⟨k', v'⟩ := p
    by_cases hk : k' = k
    · subst hk
      simp [alookup] at h
      subst h
      exact List.mem_cons_self _ _
    · simp only [alookup, if_neg hk] at h
      exact List.mem_cons_of_mem _ (ih h)

lemma alookup_of_mem_nodup [DecidableEq α] {l : List (α × β)}
    (hn : (l.map Prod.fst).Nodup) {k : α} {v : β} (h : (k, v) ∈ l) :
    alookup k l = some v := by
  induction l with
  | nil => simp at h
  | cons p rest ih =>
    obtain ⟨k', v'⟩ := p
    simp only [List.map_cons, List.nodup_cons] at hn
    rcases List.mem_cons.mp h with h1 | h1
    · injection h1 with hk hv
      subst hk
      subst hv
      simp [alookup]
    · have hk : ¬ k' = k := by
        intro he
        subst he
        exact hn.1 (List.mem_map.mpr ⟨(k', v), h1, rfl⟩)
      simp only [alookup, if_neg hk]
      exact ih hn.2 h1

lemma foldl_prepend_eq_reverse_map (f : γ → α) :
    ∀ (l : List γ) (init : List α),
      l.foldl (fun acc x => f x :: acc) init = (l.map f).reverse ++ init := by
  intro l
  induction l with
  | nil => intro init; simp
  | cons x rest ih =>
    intro init
    simp only [List.foldl_cons, List.map_cons, List.reverse_cons, ih]
    simp

lemma snakeIndexList_eq (snakes : List Battlesnake) :
    snakeIndexList snakes = (snakes.enum.map (fun p => (p.2.id, p.1))).reverse := by
  simpa [snakeIndexList] using
    foldl_prepend_eq_reverse_map (fun p : Nat × Battlesnake => (p.2.id, p.1)) snakes.enum []

lemma alookup_snakeIndexList {snakes : List Battlesnake}
    (hn : (snakes.map (fun sn => sn.id)).Nodup) {i : Nat} {sn : Battlesnake}
    (h : snakes.get? i = some sn) :
    alookup sn.id (snakeIndexList snakes) = some i := by
  rw [snakeIndexList_eq]
  apply alookup_of_mem_nodup
  · have hmap : (snakes.enum.map (fun p : Nat × Battlesnake => (p.2.id, p.1))).map Prod.fst
        = snakes.map (fun sn => sn.id) :=
      calc (snakes.enum.map (fun p : Nat × Battlesnake => (p.2.id, p.1))).map Prod.fst
          = snakes.enum.map (fun p : Nat × Battlesnake => p.2.id) := by
            rw [List.map_map]
            rfl
        _ = (snakes.enum.map Prod.snd).map (fun sn : Battlesnake => sn.id) := by
            rw [List.map_map]
            rfl
        _ = snakes.map (fun sn => sn.id) := by rw [List.enum_map_snd]
    rw [List.map_reverse, List.nodup_reverse, hmap]
    exact hn
  · rw [List.mem_reverse]
    exact List.mem_map.mpr ⟨(i, sn), List.mem_enum_iff_get?.mpr h, rfl⟩

lemma dropLast_append_getLastD {l : List α} (d : α) (h : l ≠ []) :
    l.dropLast ++ [l.getLastD d] = l := by
  induction l generalizing d with
  | nil => exact absurd rfl h
  | cons a t ih =>
    cases t with
    | nil => rfl
    | cons b t' =>
      rw [List.getLastD_cons, List.dropLast_cons_of_ne_nil (List.cons_ne_nil b t'),
        List.cons_append, ih a (List.cons_ne_nil b t')]

/-!
Claim C10: `shortest_distance(c, c)` is `Some(0)` for every coordinate,
viable or not.
-/

/-- C10: for every state, every coordinate `c` (in particular one lying in
the obstacle set or out of bounds) and every positive fuel,
`shortest_distance c c` returns `some 0`: the start node is popped first,
immediately matches the goal, and its stored distance 0 is returned; the
start cell's viability is never consulted, only cells entered from it are
filtered. -/
theorem c10_shortest_distance_self (s : GameState) (c : Coord) (fuel : Nat) :
    shortest_distance s (fuel + 1) c c = some 0 := by
  simp [shortest_distance, shortestDistanceLoop, popMin, alookup]

/-!
Claim C5: the `center_dist` evaluator feature.  The source's `Board::center`
computes the y component from the board *width* (src/battlesnake.rs:216-221),
so on a non-square board the feature is not the distance to
`(width/2, height/2)`.
-/

/-- Controlled snake for the C5 failing input: head at `(2, 5)`. -/
def c5_snake : Battlesnake :=
  { id := "Y", health := 90, body := [{ x := 2, y := 5 }], head := { x := 2, y := 5 },
    length := 1, eliminated := false }

/-- C5 failing input: a 5-wide, 11-tall solo board whose controlled snake sits
on the true centre `(width/2, height/2) = (2, 5)`. -/
def c5_state : GameState :=
  { mode := GameMode.Solo, hazard_damage_per_turn := 14, turn := 0,
    board :=
      { height := 11, width := 5, food := ∅, hazards := [], snakes := [c5_snake],
        obstacles := ∅, hazard_damage := [], stomps := ∅, avoids := ∅,
        snake_indexes := [("Y", 0)] },
    you := c5_snake, undo_stack := [] }

/-- C5: on the 5-wide, 11-tall board with the controlled head at `(2, 5)` the
evaluator's `center_dist` is `-300` because `Board::center` returns
`(width/2, width/2) = (2, 2)`, whereas the claimed formula
`-100 * Manhattan(head, (width/2, height/2))` evaluates to `0`: the code
computes the centre's y coordinate from the width. -/
theorem c5_center_dist_uses_width_for_y :
    (basic_evaluate c5_state 0).center_dist = -300 ∧
    c5_state.board.center = { x := 2, y := 2 } ∧
    -(Coord.manhattan_distance c5_state.you.head
        { x := c5_state.board.width.tdiv 2, y := c5_state.board.height.tdiv 2 }) * 100
      = 0 := by
  decide

/-!
Claim C6: the `stomps`/`avoids` indexes.  The snake loop of
`compute_metadata` skips every body index except 1 (src/battlesnake.rs:547),
so the cells collected are the neighbours of each opponent's *second* body
cell (the neck), not of its head, contradicting the `Board` field
documentation (src/battlesnake.rs:197-202).
-/

/-- Controlled snake for the C6 failing input: length 4, away from the
opponent. -/
def c6_you : Battlesnake :=
  { id := "Y", health := 100,
    body := [{ x := 0, y := 0 }, { x := 0, y := 1 }, { x := 0, y := 2 }, { x := 0, y := 3 }],
    head := { x := 0, y := 0 }, length := 4, eliminated := false }

/-- Opponent for the C6 failing input: length 3 (strictly shorter), head at
`(3, 1)`, neck at `(3, 2)`. -/
def c6_opp : Battlesnake :=
  { id := "A", health := 100,
    body := [{ x := 3, y := 1 }, { x := 3, y := 2 }, { x := 3, y := 3 }],
    head := { x := 3, y := 1 }, length := 3, eliminated := false }

/-- C6 failing input: a standard 5x5 board with the length-4 controlled snake
and a length-3 opponent. -/
def c6_state : GameState :=
  { mode := GameMode.Standard, hazard_damage_per_turn := 14, turn := 0,
    board :=
      { height := 5, width := 5, food := ∅, hazards := [],
        snakes := [c6_you, c6_opp], obstacles := ∅, hazard_damage := [], stomps := ∅,
        avoids := ∅, snake_indexes := [] },
    you := c6_you, undo_stack := [] }

/-- C6: after `compute_metadata` on the C6 failing input, `stomps` contains
`(2, 2)` — a neighbour of the shorter opponent's *neck* `(3, 2)` — but not
`(3, 0)`, which is adjacent to the opponent's head `(3, 1)` as the claim (and
the field's own documentation) requires; `(3, 0)` is in neither threat set. -/
theorem c6_stomps_built_from_neck :
    ({ x := 2, y := 2 } : Coord) ∈ (computeMetadata c6_state).board.stomps ∧
    ({ x := 3, y := 0 } : Coord) ∉ (computeMetadata c6_state).board.stomps ∧
    ({ x := 3, y := 0 } : Coord) ∉ (computeMetadata c6_state).board.avoids := by
  decide

/-!
Claim C2: feeding and hazard damage for a moved agent.
-/

/-- C2: in a non-constrictor mode, a moved agent whose new head carries
accumulated hazard damage `D` ends the move-application step with health
exactly 100 if the cell also holds food, and otherwise with its health
lowered by `D` on top of the regular per-turn 1 (`stepSnake` is the loop body
of `advance`, src/battlesnake.rs:317-336). -/
theorem c2_hazard_health (s : GameState) (nh : Coord) (sn : Battlesnake) (D : Int)
    (hm : ¬ s.mode = GameMode.Constrictor)
    (hd : alookup nh s.board.hazard_damage = some D) :
    (stepSnake s nh sn).health =
      if nh ∈ s.board.food then 100 else sn.health - 1 - D := by
  simp only [stepSnake, if_neg hm, hd]

/-- Moved snake for the C2 witness. -/
def c2w_snake : Battlesnake :=
  { id := "Y", health := 50, body := [{ x := 1, y := 1 }, { x := 1, y := 2 }],
    head := { x := 1, y := 1 }, length := 2, eliminated := false }

/-- C2 witness state: standard mode, food at `(2, 0)`, accumulated hazard
damage 14 on `(1, 0)`. -/
def c2w_state : GameState :=
  { mode := GameMode.Standard, hazard_damage_per_turn := 14, turn := 0,
    board :=
      { height := 5, width := 5, food := {({ x := 2, y := 0 } : Coord)},
        hazards := [{ x := 1, y := 0 }], snakes := [c2w_snake], obstacles := ∅,
        hazard_damage := [({ x := 1, y := 0 }, 14)], stomps := ∅, avoids := ∅,
        snake_indexes := [("Y", 0)] },
    you := c2w_snake, undo_stack := [] }

/-- Witness for C2 at the concrete state: moving onto the foodless hazard
cell `(1, 0)` with accumulated damage 14. -/
theorem c2_hazard_health_witness :
    (stepSnake c2w_state { x := 1, y := 0 } c2w_snake).health =
      if ({ x := 1, y := 0 } : Coord) ∈ c2w_state.board.food then 100
      else c2w_snake.health - 1 - 14 :=
  c2_hazard_health c2w_state { x := 1, y := 0 } c2w_snake 14 (by decide) (by decide)

/-!
Claim C7: the fallback direction when the controlled agent has no viable
move at the root.  The deterministic default of `random_valid_move`
(src/battlesnake.rs:592) is `Down`, not the first enumerated direction `Up`.
-/

/-- C7 (amended): when every cell adjacent to the controlled snake's head is
out of bounds or an obstacle, the initial best direction installed by
`Search::new` — the direction `make_move` falls back to — is the
deterministic default `Down`, for every random chooser. -/
theorem c7_no_viable_fallback_down (s : GameState)
    (pick : List (Coord × Direction) → Coord × Direction)
    (h : ∀ d : Direction, ¬ viable s (adjacent_coord s s.you.head d)) :
    (Search.new s pick).best_direction = Direction.Down := by
  have hv : (adjacent_moves s s.you.head).filter (fun p => decide (viable s p.1)) = [] := by
    rw [List.filter_eq_nil]
    intro p hp
    simp only [adjacent_moves, List.mem_map] at hp
    obtain ⟨d, _, rfl⟩ := hp
    simpa using h d
  simp [Search.new, random_valid_move, hv]

/-- Controlled snake for the C7 inputs: alone on a 1x1 board, so every
adjacent cell is out of bounds. -/
def c7_snake : Battlesnake :=
  { id := "Y", health := 100, body := [{ x := 0, y := 0 }], head := { x := 0, y := 0 },
    length := 1, eliminated := false }

/-- C7 input state: a 1x1 standard board. -/
def c7_state : GameState :=
  { mode := GameMode.Standard, hazard_damage_per_turn := 14, turn := 0,
    board :=
      { height := 1, width := 1, food := ∅, hazards := [], snakes := [c7_snake],
        obstacles := ∅, hazard_damage := [], stomps := ∅, avoids := ∅,
        snake_indexes := [("Y", 0)] },
    you := c7_snake, undo_stack := [] }

/-- A concrete chooser for the C7 inputs (never consulted on the fallback
path). -/
def c7_pick : List (Coord × Direction) → Coord × Direction :=
  fun l => l.headD ({ x := -1, y := -1 }, Direction.Down)

/-- C7 counterexample: with no viable move at the root the fallback direction
is `Down`, not the first direction in enumeration order (`Up`) as claimed. -/
theorem c7_counterexample :
    (Search.new c7_state c7_pick).best_direction = Direction.Down ∧
    ¬ (Search.new c7_state c7_pick).best_direction = Direction.Up := by
  decide

/-- Witness for the amended C7 at the concrete boxed-in state. -/
theorem c7_no_viable_fallback_down_witness :
    (Search.new c7_state c7_pick).best_direction = Direction.Down :=
  c7_no_viable_fallback_down c7_state c7_pick (by decide)

/-!
Claim C3: `direction_to(a, adjacent(a, d)) = d`.  `direction_to` always
reduces modulo the board size while `adjacent_coord` only wraps in `Wrapped`
mode, so the law fails at board edges in non-wrapped modes; it also needs
width and height of at least 3 so that the four wrapped neighbours are
distinguishable.
-/

lemma c3aux_dvd_small {w t : Int} (hw : 3 ≤ w)
    (ht : t = 1 ∨ t = 2 ∨ t = -1 ∨ t = -2) (hd : w ∣ t) : False := by
  rcases ht with rfl | rfl | rfl | rfl
  · exact absurd (Int.le_of_dvd one_pos hd) (by omega)
  · exact absurd (Int.le_of_dvd two_pos hd) (by omega)
  · exact absurd (Int.le_of_dvd one_pos (dvd_neg.mp hd)) (by omega)
  · exact absurd (Int.le_of_dvd two_pos (dvd_neg.mp hd)) (by omega)

lemma emod_ne_of_small {x y w : Int} (hw : 3 ≤ w)
    (hsmall : y - x = 1 ∨ y - x = 2 ∨ y - x = -1 ∨ y - x = -2) :
    ¬ x % w = y % w :=
  fun h => c3aux_dvd_small hw hsmall (Int.ModEq.dvd h)

/-- The raw (non-wrapped) neighbour: the `_` branch of `adjacent_coord`. -/
def flatAdjacent (a : Coord) : Direction → Coord
  | Direction.Up => { x := a.x, y := a.y + 1 }
  | Direction.Down => { x := a.x, y := a.y - 1 }
  | Direction.Left => { x := a.x - 1, y := a.y }
  | Direction.Right => { x := a.x + 1, y := a.y }

lemma direction_to_eval (s : GameState) (a b : Coord) :
    direction_to s a b =
      if ((a.x + 1) % s.board.width = b.x ∧ a.y = b.y) then some Direction.Right
      else if ((a.x - 1) % s.board.width = b.x ∧ a.y = b.y) then some Direction.Left
      else if (a.x = b.x ∧ (a.y + 1) % s.board.height = b.y) then some Direction.Up
      else if (a.x = b.x ∧ (a.y - 1) % s.board.height = b.y) then some Direction.Down
      else none := rfl

lemma c3_wrapped (s : GameState) (a : Coord) (d : Direction)
    (hmode : s.mode = GameMode.Wrapped)
    (hw : 3 ≤ s.board.width) (hh : 3 ≤ s.board.height)
    (ha : in_bounds a s.board.width s.board.height) :
    direction_to s a (adjacent_coord s a d) = some d := by
  obtain ⟨hax, hay, haxw, hayh⟩ := ha
  have hxw : a.x % s.board.width = a.x := Int.emod_eq_of_lt hax haxw
  have hyh : a.y % s.board.height = a.y := Int.emod_eq_of_lt hay hayh
  cases d
  case Up =>
    have hadj : adjacent_coord s a Direction.Up =
        { x := a.x % s.board.width, y := (a.y + 1) % s.board.height } := by
      simp [adjacent_coord, hmode]
    rw [hadj, direction_to_eval]
    rw [if_neg (fun h => emod_ne_of_small hw (by omega) h.1),
      if_neg (fun h => emod_ne_of_small hw (by omega) h.1),
      if_pos ⟨hxw.symm, rfl⟩]
  case Down =>
    have hadj : adjacent_coord s a Direction.Down =
        { x := a.x % s.board.width, y := (a.y - 1) % s.board.height } := by
      simp [adjacent_coord, hmode]
    rw [hadj, direction_to_eval]
    rw [if_neg (fun h => emod_ne_of_small hw (by omega) h.1),
      if_neg (fun h => emod_ne_of_small hw (by omega) h.1),
      if_neg (fun h => emod_ne_of_small hh (by omega) h.2),
      if_pos ⟨hxw.symm, rfl⟩]
  case Left =>
    have hadj : adjacent_coord s a Direction.Left =
        { x := (a.x - 1) % s.board.width, y := a.y % s.board.height } := by
      simp [adjacent_coord, hmode]
    rw [hadj, direction_to_eval]
    rw [if_neg (fun h => emod_ne_of_small hw (by omega) h.1),
      if_pos ⟨rfl, hyh.symm⟩]
  case Right =>
    have hadj : adjacent_coord s a Direction.Right =
        { x := (a.x + 1) % s.board.width, y := a.y % s.board.height } := by
      simp [adjacent_coord, hmode]
    rw [hadj, direction_to_eval]
    rw [if_pos ⟨rfl, hyh.symm⟩]

lemma c3_flat (s : GameState) (a : Coord) (d : Direction)
    (hw : 3 ≤ s.board.width) (hh : 3 ≤ s.board.height)
    (ha : in_bounds a s.board.width s.board.height)
    (hb : in_bounds (flatAdjacent a d) s.board.width s.board.height) :
    direction_to s a (flatAdjacent a d) = some d := by
  obtain ⟨hax, hay, haxw, hayh⟩ := ha
  cases d
  case Up =>
    have hb' : 0 ≤ a.x ∧ 0 ≤ a.y + 1 ∧ a.x < s.board.width ∧
        a.y + 1 < s.board.height := hb
    show (if ((a.x + 1) % s.board.width = a.x ∧ a.y = a.y + 1) then some Direction.Right
      else if ((a.x - 1) % s.board.width = a.x ∧ a.y = a.y + 1) then some Direction.Left
      else if (a.x = a.x ∧ (a.y + 1) % s.board.height = a.y + 1) then some Direction.Up
      else if (a.x = a.x ∧ (a.y - 1) % s.board.height = a.y + 1) then some Direction.Down
      else none) = some Direction.Up
    rw [if_neg (fun h => by omega), if_neg (fun h => by omega),
      if_pos ⟨rfl, Int.emod_eq_of_lt (by omega) (by omega)⟩]
  case Down =>
    have hb' : 0 ≤ a.x ∧ 0 ≤ a.y - 1 ∧ a.x < s.board.width ∧
        a.y - 1 < s.board.height := hb
    have c3 : ¬ (a.x = a.x ∧ (a.y + 1) % s.board.height = a.y - 1) := by
      rintro ⟨-, h2⟩
      rcases lt_or_eq_of_le (show a.y + 1 ≤ s.board.height by omega) with hlt | heq
      · rw [Int.emod_eq_of_lt (by omega) hlt] at h2
        omega
      · rw [heq, Int.emod_self] at h2
        omega
    show (if ((a.x + 1) % s.board.width = a.x ∧ a.y = a.y - 1) then some Direction.Right
      else if ((a.x - 1) % s.board.width = a.x ∧ a.y = a.y - 1) then some Direction.Left
      else if (a.x = a.x ∧ (a.y + 1) % s.board.height = a.y - 1) then some Direction.Up
      else if (a.x = a.x ∧ (a.y - 1) % s.board.height = a.y - 1) then some Direction.Down
      else none) = some Direction.Down
    rw [if_neg (fun h => by omega), if_neg (fun h => by omega), if_neg c3,
      if_pos ⟨rfl, Int.emod_eq_of_lt (by omega) (by omega)⟩]
  case Left =>
    have hb' : 0 ≤ a.x - 1 ∧ 0 ≤ a.y ∧ a.x - 1 < s.board.width ∧
        a.y < s.board.height := hb
    have c1 : ¬ ((a.x + 1) % s.board.width = a.x - 1 ∧ a.y = a.y) := by
      rintro ⟨h1, -⟩
      rcases lt_or_eq_of_le (show a.x + 1 ≤ s.board.width by omega) with hlt | heq
      · rw [Int.emod_eq_of_lt (by omega) hlt] at h1
        omega
      · rw [heq, Int.emod_self] at h1
        omega
    show (if ((a.x + 1) % s.board.width = a.x - 1 ∧ a.y = a.y) then some Direction.Right
      else if ((a.x - 1) % s.board.width = a.x - 1 ∧ a.y = a.y) then some Direction.Left
      else if (a.x = a.x - 1 ∧ (a.y + 1) % s.board.height = a.y) then some Direction.Up
      else if (a.x = a.x - 1 ∧ (a.y - 1) % s.board.height = a.y) then some Direction.Down
      else none) = some Direction.Left
    rw [if_neg c1, if_pos ⟨Int.emod_eq_of_lt (by omega) (by omega), rfl⟩]
  case Right =>
    have hb' : 0 ≤ a.x + 1 ∧ 0 ≤ a.y ∧ a.x + 1 < s.board.width ∧
        a.y < s.board.height := hb
    show (if ((a.x + 1) % s.board.width = a.x + 1 ∧ a.y = a.y) then some Direction.Right
      else if ((a.x - 1) % s.board.width = a.x + 1 ∧ a.y = a.y) then some Direction.Left
      else if (a.x = a.x + 1 ∧ (a.y + 1) % s.board.height = a.y) then some Direction.Up
      else if (a.x = a.x + 1 ∧ (a.y - 1) % s.board.height = a.y) then some Direction.Down
      else none) = some Direction.Right
    rw [if_pos ⟨Int.emod_eq_of_lt (by omega) (by omega), rfl⟩]

/-- C3 (amended): for boards at least 3 wide and 3 tall and an in-bounds
coordinate `a`, `direction_to(a, adjacent(a, d)) = d` holds whenever the
neighbour is itself in bounds — which is always the case in `Wrapped` mode
and exactly excludes the border steps of the non-wrapped modes, where
`adjacent_coord` leaves the board but `direction_to` still reduces modulo the
board size and returns `none`. -/
theorem c3_direction_to_adjacent (s : GameState) (a : Coord) (d : Direction)
    (hw : 3 ≤ s.board.width) (hh : 3 ≤ s.board.height)
    (ha : in_bounds a s.board.width s.board.height)
    (hb : in_bounds (adjacent_coord s a d) s.board.width s.board.height) :
    direction_to s a (adjacent_coord s a d) = some d := by
  cases hm : s.mode
  case Wrapped => exact c3_wrapped s a d hm hw hh ha
  all_goals
    have hflat : adjacent_coord s a d = flatAdjacent a d := by
      cases d <;> simp [adjacent_coord, hm, flatAdjacent]
  all_goals rw [hflat] at hb ⊢
  all_goals exact c3_flat s a d hw hh ha hb

/-- A controlled snake placeholder for the C3 concrete states. -/
def c3_snake : Battlesnake :=
  { id := "Y", health := 100, body := [{ x := 4, y := 4 }], head := { x := 4, y := 4 },
    length := 1, eliminated := false }

/-- C3 counterexample state: a standard (non-wrapped) 5x5 board. -/
def c3_state : GameState :=
  { mode := GameMode.Standard, hazard_damage_per_turn := 14, turn := 0,
    board :=
      { height := 5, width := 5, food := ∅, hazards := [], snakes := [c3_snake],
        obstacles := ∅, hazard_damage := [], stomps := ∅, avoids := ∅,
        snake_indexes := [("Y", 0)] },
    you := c3_snake, undo_stack := [] }

/-- C3 witness state: a wrapped 5x5 board. -/
def c3w_state : GameState :=
  { mode := GameMode.Wrapped, hazard_damage_per_turn := 14, turn := 0,
    board :=
      { height := 5, width := 5, food := ∅, hazards := [], snakes := [c3_snake],
        obstacles := ∅, hazard_damage := [], stomps := ∅, avoids := ∅,
        snake_indexes := [("Y", 0)] },
    you := c3_snake, undo_stack := [] }

/-- C3 counterexample: on a standard 5x5 board, stepping left from the
in-bounds corner `(0, 0)` gives the neighbour `(-1, 0)`, and
`direction_to((0,0), (-1,0))` is `none`, not `some Left`: the claimed law
fails in a non-wrapped mode. -/
theorem c3_counterexample :
    adjacent_coord c3_state { x := 0, y := 0 } Direction.Left = { x := -1, y := 0 } ∧
    direction_to c3_state { x := 0, y := 0 }
      (adjacent_coord c3_state { x := 0, y := 0 } Direction.Left) = none := by
  decide

/-- Witness for the amended C3: a wrapping step down from `(1, 0)` on the
wrapped 5x5 board. -/
theorem c3_direction_to_adjacent_witness :
    direction_to c3w_state { x := 1, y := 0 }
      (adjacent_coord c3w_state { x := 1, y := 0 } Direction.Down) = some Direction.Down :=
  c3_direction_to_adjacent c3w_state { x := 1, y := 0 } Direction.Down (by decide)
    (by decide) (by decide) (by decide)

/-!
Claim C9: constrictor-mode behaviour of `advance`.  The per-turn health
decrement is indeed skipped and the body only grows, but the hazard branch
(src/battlesnake.rs:333-335) still runs in constrictor mode, so health can
drop and the health-elimination check (src/battlesnake.rs:357) can fire.
-/

/-- C9 (amended): in constrictor mode a moved agent's body always grows (by
two cells when feeding, one otherwise — never shrinks), and its health never
decreases as long as its new head is not on a foodless hazard cell; entering
a foodless hazard cell still subtracts the accumulated damage, which can
eliminate the agent through the health check. -/
theorem c9_constrictor_grows (s : GameState) (nh : Coord) (sn : Battlesnake)
    (hc : s.mode = GameMode.Constrictor) (health_cap : sn.health ≤ 100) :
    (stepSnake s nh sn).body.length =
      sn.body.length + (if nh ∈ s.board.food then 2 else 1) ∧
    ((alookup nh s.board.hazard_damage = none ∨ nh ∈ s.board.food) →
      sn.health ≤ (stepSnake s nh sn).health) := by
  constructor
  · by_cases hf : nh ∈ s.board.food
    · simp [stepSnake, if_pos hc, hf]
    · simp [stepSnake, if_pos hc, hf]
  · intro hcase
    by_cases hf : nh ∈ s.board.food
    · simp only [stepSnake, if_pos hc, if_pos hf]
      exact health_cap
    · rcases hcase with hnone | hfood
      · simp [stepSnake, if_pos hc, hf, hnone]
      · exact absurd hfood hf

/-- Moved snake for the C9 inputs. -/
def c9_snake : Battlesnake :=
  { id := "Y", health := 10, body := [{ x := 1, y := 1 }, { x := 1, y := 2 }],
    head := { x := 1, y := 1 }, length := 2, eliminated := false }

/-- C9 counterexample state: constrictor mode with accumulated hazard damage
16 on `(1, 0)`. -/
def c9_state : GameState :=
  { mode := GameMode.Constrictor, hazard_damage_per_turn := 16, turn := 0,
    board :=
      { height := 5, width := 5, food := ∅, hazards := [{ x := 1, y := 0 }],
        snakes := [c9_snake], obstacles := ∅,
        hazard_damage := [({ x := 1, y := 0 }, 16)], stomps := ∅, avoids := ∅,
        snake_indexes := [("Y", 0)] },
    you := c9_snake, undo_stack := [] }

/-- C9 counterexample: in constrictor mode, moving the health-10 snake onto
the in-bounds hazard cell `(1, 0)` (no collision possible: it is the only
snake and the cell is not on any body) eliminates it with health `-6`:
constrictor advance does decrease health via hazard damage, and the agent is
eliminated by health reaching 0, not by a collision or going out of
bounds. -/
theorem c9_counterexample :
    (advance c9_state [("Y", { x := 1, y := 0 })]).board.snakes = [] ∧
    ((advance c9_state [("Y", { x := 1, y := 0 })]).undo_stack.headD
      { previous_tails := [], previous_health := [], eaten_food := ∅,
        eliminated_snakes := [] }).eliminated_snakes.map (fun sn => sn.health)
      = [-6] := by
  decide

/-- Hazard-free constrictor state for the C9 witness. -/
def c9w_state : GameState :=
  { mode := GameMode.Constrictor, hazard_damage_per_turn := 16, turn := 0,
    board :=
      { height := 5, width := 5, food := ∅, hazards := [], snakes := [c9_snake],
        obstacles := ∅, hazard_damage := [], stomps := ∅, avoids := ∅,
        snake_indexes := [("Y", 0)] },
    you := c9_snake, undo_stack := [] }

/-- Witness for the amended C9 at the hazard-free constrictor state. -/
theorem c9_constrictor_grows_witness :
    (stepSnake c9w_state { x := 1, y := 0 } c9_snake).body.length =
      c9_snake.body.length +
        (if ({ x := 1, y := 0 } : Coord) ∈ c9w_state.board.food then 2 else 1) ∧
    ((alookup ({ x := 1, y := 0 } : Coord) c9w_state.board.hazard_damage = none ∨
        ({ x := 1, y := 0 } : Coord) ∈ c9w_state.board.food) →
      c9_snake.health ≤ (stepSnake c9w_state { x := 1, y := 0 } c9_snake).health) :=
  c9_constrictor_grows c9w_state { x := 1, y := 0 } c9_snake (by decide) (by decide)

/-!
Infrastructure for the `advance`/`undo` claims: projections of a
metadata-consistent state, non-negativity of accumulated hazard damage,
structural facts about `stepSnake` and `markEliminated`.
-/

lemma snake_indexes_of_metadata {s : GameState} (h : computeMetadata s = s) :
    s.board.snake_indexes = snakeIndexList s.board.snakes := by
  conv_lhs => rw [← h]
  rfl

lemma hazard_damage_of_metadata {s : GameState} (h : computeMetadata s = s) :
    s.board.hazard_damage =
      (hazardsFold s.hazard_damage_per_turn s.you.health s.board.hazards
        ([], bodyObstacles s.board.snakes)).1 := by
  conv_lhs => rw [← h]
  rfl

lemma hazardsFold_nonneg {dmg yh : Int} (hd : 0 ≤ dmg) :
    ∀ (hz : List Coord) (start : List (Coord × Int) × Finset Coord),
      (∀ p ∈ start.1, 0 ≤ p.2) → ∀ p ∈ (hazardsFold dmg yh hz start).1, 0 ≤ p.2 := by
  intro hz
  induction hz with
  | nil => intro start hstart; simpa [hazardsFold] using hstart
  | cons c rest ih =>
    intro start hstart
    simp only [hazardsFold, List.foldl_cons] at ih ⊢
    apply ih
    intro p hp
    rcases List.mem_cons.mp hp with h1 | h1
    · subst h1
      dsimp only
      cases hl : alookup c start.1 with
      | none => simpa using hd
      | some d =>
        have h3 : (0 : Int) ≤ d := by simpa using hstart _ (alookup_eq_some_mem hl)
        simpa using add_nonneg h3 hd
    · exact hstart p h1

lemma stepSnake_id (s : GameState) (nh : Coord) (sn : Battlesnake) :
    (stepSnake s nh sn).id = sn.id := rfl

lemma stepSnake_eliminated (s : GameState) (nh : Coord) (sn : Battlesnake) :
    (stepSnake s nh sn).eliminated = sn.eliminated := rfl

lemma stepSnake_head (s : GameState) (nh : Coord) (sn : Battlesnake) :
    (stepSnake s nh sn).head = nh := rfl

lemma stepSnake_length_eq (s : GameState) (nh : Coord) (sn : Battlesnake) :
    (stepSnake s nh sn).length = (stepSnake s nh sn).body.length := rfl

lemma stepSnake_body_head (s : GameState) (nh : Coord) {sn : Battlesnake}
    (hb : sn.body ≠ []) : (stepSnake s nh sn).body.head? = some nh := by
  have h2 : (nh :: sn.body).dropLast = nh :: sn.body.dropLast :=
    List.dropLast_cons_of_ne_nil hb
  by_cases hc : s.mode = GameMode.Constrictor <;> by_cases hf : nh ∈ s.board.food <;>
    simp [stepSnake, hc, hf, h2, List.cons_append]

lemma markEliminated_fields (w h : Int) (hd : List (String × (Coord × Nat)))
    (bd : List (String × Finset Coord)) (z : Battlesnake) :
    (markEliminated w h hd bd z).id = z.id ∧
    (markEliminated w h hd bd z).health = z.health ∧
    (markEliminated w h hd bd z).body = z.body ∧
    (markEliminated w h hd bd z).head = z.head ∧
    (markEliminated w h hd bd z).length = z.length :=
  ⟨rfl, rfl, rfl, rfl, rfl⟩

lemma markEliminated_eq_self {w h : Int} {hd : List (String × (Coord × Nat))}
    {bd : List (String × Finset Coord)} {z : Battlesnake}
    (hf : (markEliminated w h hd bd z).eliminated = false) :
    markEliminated w h hd bd z = z := by
  have hzel : z.eliminated = false := by
    by_contra hne
    have htrue : z.eliminated = true := by simpa using hne
    have hmk : (markEliminated w h hd bd z).eliminated = true := by
      simp [markEliminated, htrue]
    rw [hf] at hmk
    exact Bool.false_ne_true hmk
  cases z with
  | mk i hl bo he ln el =>
    have hel : el = false := hzel
    subst hel
    exact congrArg (fun e => Battlesnake.mk i hl bo he ln e) hf

lemma markEliminated_health_pos {w h : Int} {hd : List (String × (Coord × Nat))}
    {bd : List (String × Finset Coord)} {z : Battlesnake}
    (hf : (markEliminated w h hd bd z).eliminated = false) : 0 < z.health := by
  by_contra hle
  have h0 : z.health ≤ 0 := by omega
  have hmk : (markEliminated w h hd bd z).eliminated = true := by
    simp [markEliminated, h0]
  rw [hf] at hmk
  exact Bool.false_ne_true hmk

/-- The eaten-food set produced by applying, in board order, the move `mv`
to every snake: the heads that land on food. -/
def eatenOf (s : GameState) (mv : Battlesnake → Coord) : Finset Coord :=
  s.board.snakes.foldl
    (fun e sn => if mv sn ∈ s.board.food then insert (mv sn) e else e) ∅

/-- The move-application loop, run on a full board-order joint move over a
state whose `snake_indexes` sends each snake id to its position: it applies
`stepSnake` to every snake in place and journals one tail, one health value
and one `snake_heads`/`snake_bodies` entry per snake. -/
lemma applyMovesGo_boardOrder (s : GameState) (mv : Battlesnake → Coord) :
    ∀ (rest pre : List Battlesnake) (acc : MoveAcc),
      (∀ (j : Nat) (sn : Battlesnake), rest.get? j = some sn →
        alookup sn.id s.board.snake_indexes = some (pre.length + j)) →
      acc.snakes = pre ++ rest →
      ((rest.map (fun sn => sn.id)).Nodup) →
      (∀ sn ∈ rest, ∀ p ∈ acc.snake_heads, ¬ p.1 = sn.id) →
      (∀ sn ∈ rest, ∀ p ∈ acc.snake_bodies, ¬ p.1 = sn.id) →
      applyMovesGo s (rest.map (fun sn => (sn.id, mv sn))) acc =
        { snakes := pre ++ rest.map (fun sn => stepSnake s (mv sn) sn),
          prev_tails :=
            (rest.map (fun sn => (sn.id, poppedTail (mv sn) sn))).reverse ++
              acc.prev_tails,
          prev_health :=
            (rest.map (fun sn => (sn.id, sn.health))).reverse ++ acc.prev_health,
          eaten := rest.foldl
            (fun e sn => if mv sn ∈ s.board.food then insert (mv sn) e else e)
            acc.eaten,
          snake_heads :=
            (rest.map (fun sn => (sn.id,
              ((stepSnake s (mv sn) sn).head,
                (stepSnake s (mv sn) sn).length)))).reverse ++ acc.snake_heads,
          snake_bodies :=
            (rest.map (fun sn => (sn.id,
              (stepSnake s (mv sn) sn).body.tail.toFinset))).reverse ++
              acc.snake_bodies } := by
  intro rest
  induction rest with
  | nil =>
    intro pre acc _ hacc _ _ _
    cases acc
    simp only [List.map_nil, applyMovesGo, List.reverse_nil, List.nil_append,
      List.append_nil, List.foldl_nil] at hacc ⊢
    simp [hacc]
  | cons x rest ih =>
    intro pre acc hidx hacc hnd hfh hfb
    simp only [List.map_cons, List.nodup_cons, List.mem_map] at hnd
    have hx : alookup x.id s.board.snake_indexes = some pre.length := by
      simpa using hidx 0 x rfl
    have hget : acc.snakes.get? pre.length = some x := by
      rw [hacc, List.get?_eq_getElem?, List.getElem?_append_right (le_refl pre.length)]
      simp
    have hset : acc.snakes.set pre.length (stepSnake s (mv x) x)
        = (pre ++ [stepSnake s (mv x) x]) ++ rest := by
      rw [hacc, List.set_append, if_neg (lt_irrefl pre.length)]
      simp
    simp only [List.map_cons, applyMovesGo, hx, hget]
    rw [ih (pre ++ [stepSnake s (mv x) x])
      { snakes := acc.snakes.set pre.length (stepSnake s (mv x) x),
        prev_tails := (x.id, poppedTail (mv x) x) :: acc.prev_tails,
        prev_health := (x.id, x.health) :: acc.prev_health,
        eaten := if mv x ∈ s.board.food then insert (mv x) acc.eaten else acc.eaten,
        snake_heads := ainsert x.id
          ((stepSnake s (mv x) x).head, (stepSnake s (mv x) x).length) acc.snake_heads,
        snake_bodies := ainsert x.id
          (stepSnake s (mv x) x).body.tail.toFinset acc.snake_bodies }]
    · have hfilter_h :
          acc.snake_heads.filter (fun p => ¬ p.1 = x.id) = acc.snake_heads := by
        rw [List.filter_eq_self]
        intro p hp
        simpa using hfh x (List.mem_cons_self x rest) p hp
      have hfilter_b :
          acc.snake_bodies.filter (fun p => ¬ p.1 = x.id) = acc.snake_bodies := by
        rw [List.filter_eq_self]
        intro p hp
        simpa using hfb x (List.mem_cons_self x rest) p hp
      simp only [ainsert, hfilter_h, hfilter_b, hset, List.reverse_cons,
        List.append_assoc, List.foldl_cons]
      simp
    · intro j sn hj
      have := hidx (j + 1) sn (by simpa using hj)
      simpa [Nat.add_assoc, Nat.add_comm 1 j] using this
    · exact hset
    · exact hnd.2
    · intro sn hsn p hp
      simp only [ainsert, List.mem_cons] at hp
      rcases hp with hp | hp
      · subst hp
        simp only
        intro he
        exact hnd.1 ⟨sn, hsn, he.symm⟩
      · exact hfh sn (List.mem_cons_of_mem x hsn) p (List.mem_of_mem_filter hp)
    · intro sn hsn p hp
      simp only [ainsert, List.mem_cons] at hp
      rcases hp with hp | hp
      · subst hp
        simp only
        intro he
        exact hnd.1 ⟨sn, hsn, he.symm⟩
      · exact hfb sn (List.mem_cons_of_mem x hsn) p (List.mem_of_mem_filter hp)

/-- `applyMovesGo` on the full board-order joint move from the initial
accumulator of `advance`. -/
lemma applyMovesGo_full (s : GameState) (mv : Battlesnake → Coord)
    (hidx : s.board.snake_indexes = snakeIndexList s.board.snakes)
    (hnd : (s.board.snakes.map (fun sn => sn.id)).Nodup) :
    applyMovesGo s (boardMoves s mv)
      { snakes := s.board.snakes, prev_tails := [], prev_health := [],
        eaten := ∅, snake_heads := [], snake_bodies := [] } =
      { snakes := s.board.snakes.map (fun sn => stepSnake s (mv sn) sn),
        prev_tails :=
          (s.board.snakes.map (fun sn => (sn.id, poppedTail (mv sn) sn))).reverse,
        prev_health := (s.board.snakes.map (fun sn => (sn.id, sn.health))).reverse,
        eaten := eatenOf s mv,
        snake_heads :=
          (s.board.snakes.map (fun sn => (sn.id,
            ((stepSnake s (mv sn) sn).head, (stepSnake s (mv sn) sn).length)))).reverse,
        snake_bodies :=
          (s.board.snakes.map (fun sn => (sn.id,
            (stepSnake s (mv sn) sn).body.tail.toFinset))).reverse } := by
  have h := applyMovesGo_boardOrder s mv s.board.snakes []
    { snakes := s.board.snakes, prev_tails := [], prev_health := [],
      eaten := ∅, snake_heads := [], snake_bodies := [] }
    (fun j sn hj => by rw [hidx]; simpa using alookup_snakeIndexList hnd hj)
    (by simp) hnd (by simp) (by simp)
  simpa [boardMoves, eatenOf] using h

lemma eatenOf_subset (s : GameState) (mv : Battlesnake → Coord) :
    eatenOf s mv ⊆ s.board.food := by
  suffices h : ∀ (l : List Battlesnake) (e : Finset Coord), e ⊆ s.board.food →
      l.foldl (fun e sn => if mv sn ∈ s.board.food then insert (mv sn) e else e) e
        ⊆ s.board.food by
    exact h _ _ (Finset.empty_subset _)
  intro l
  induction l with
  | nil => intro e he; simpa using he
  | cons x rest ih =>
    intro e he
    simp only [List.foldl_cons]
    apply ih
    by_cases hf : mv x ∈ s.board.food
    · rw [if_pos hf]
      exact Finset.insert_subset_iff.mpr ⟨hf, he⟩
    · rwa [if_neg hf]

/-- `compute_metadata` reads only the primary snapshot: two states that agree
on everything except the derived indexes get the same result. -/
lemma computeMetadata_congr {s₁ s₂ : GameState}
    (h1 : s₁.mode = s₂.mode) (h2 : s₁.hazard_damage_per_turn = s₂.hazard_damage_per_turn)
    (h3 : s₁.turn = s₂.turn) (h4 : s₁.board.height = s₂.board.height)
    (h5 : s₁.board.width = s₂.board.width) (h6 : s₁.board.food = s₂.board.food)
    (h7 : s₁.board.hazards = s₂.board.hazards) (h8 : s₁.board.snakes = s₂.board.snakes)
    (h9 : s₁.you = s₂.you) (h10 : s₁.undo_stack = s₂.undo_stack) :
    computeMetadata s₁ = computeMetadata s₂ := by
  obtain ⟨m1, d1, t1, ⟨bh1, bw1, bf1, bz1, bs1, o1, o2, o3, o4, o5⟩, y1, u1⟩ := s₁
  obtain ⟨m2, d2, t2, ⟨bh2, bw2, bf2, bz2, bs2, p1, p2, p3, p4, p5⟩, y2, u2⟩ := s₂
  dsimp only at h1 h2 h3 h4 h5 h6 h7 h8 h9 h10
  subst h1 h2 h3 h4 h5 h6 h7 h8 h9 h10
  rfl

lemma stepSnake_health_le {s : GameState} {nh : Coord} {sn : Battlesnake}
    (hcap : sn.health ≤ 100) (hdm : ∀ p ∈ s.board.hazard_damage, 0 ≤ p.2) :
    (stepSnake s nh sn).health ≤ 100 := by
  by_cases hf : nh ∈ s.board.food
  · simp [stepSnake, hf]
  · cases hl : alookup nh s.board.hazard_damage with
    | none =>
      by_cases hc : s.mode = GameMode.Constrictor <;>
        simp [stepSnake, hf, hl, hc] <;> omega
    | some d =>
      have hd0 : (0 : Int) ≤ d := hdm _ (alookup_eq_some_mem hl)
      by_cases hc : s.mode = GameMode.Constrictor <;>
        simp [stepSnake, hf, hl, hc] <;> omega

lemma computeMetadata_idem (s : GameState) :
    computeMetadata (computeMetadata s) = computeMetadata s :=
  computeMetadata_congr rfl rfl rfl rfl rfl rfl rfl rfl rfl rfl

/-!
Claim C4: per-agent invariants after `advance`.  They hold for the agents the
joint move touches — with non-negative hazard damage; a negative
`hazard_damage_per_turn` (the field is a signed integer) pushes health above
100.
-/

/-- C4 (amended): from a metadata-consistent state with distinct snake ids,
non-negative hazard damage per turn, all healths at most 100 and non-empty
bodies, every agent remaining in the live list after an `advance` on a
board-order joint move satisfies `length = |body|`, `head = body[0]` and
`0 < health ≤ 100`; an agent with non-positive health never remains live. -/
theorem c4_post_advance_invariants (s : GameState) (mv : Battlesnake → Coord)
    (hmeta : computeMetadata s = s)
    (hnd : (s.board.snakes.map (fun sn => sn.id)).Nodup)
    (hdmg : 0 ≤ s.hazard_damage_per_turn)
    (hcap : ∀ sn ∈ s.board.snakes, sn.health ≤ 100)
    (hbody : ∀ sn ∈ s.board.snakes, sn.body ≠ []) :
    ∀ sn ∈ (advance s (boardMoves s mv)).board.snakes,
      sn.length = sn.body.length ∧ sn.body.head? = some sn.head ∧
      0 < sn.health ∧ sn.health ≤ 100 := by
  have hfull := applyMovesGo_full s mv (snake_indexes_of_metadata hmeta) hnd
  have hdm : ∀ p ∈ s.board.hazard_damage, (0 : Int) ≤ p.2 := by
    rw [hazard_damage_of_metadata hmeta]
    exact hazardsFold_nonneg hdmg _ _ (by simp)
  intro sn hsn
  have hsn' : sn ∈ ((applyMovesGo s (boardMoves s mv)
      { snakes := s.board.snakes, prev_tails := [], prev_health := [],
        eaten := ∅, snake_heads := [], snake_bodies := [] }).snakes.map
      (markEliminated s.board.width s.board.height
        (applyMovesGo s (boardMoves s mv)
          { snakes := s.board.snakes, prev_tails := [], prev_health := [],
            eaten := ∅, snake_heads := [], snake_bodies := [] }).snake_heads
        (applyMovesGo s (boardMoves s mv)
          { snakes := s.board.snakes, prev_tails := [], prev_health := [],
            eaten := ∅, snake_heads := [], snake_bodies := [] }).snake_bodies)).filter
      (fun z => ¬ z.eliminated) := hsn
  rw [hfull] at hsn'
  simp only [List.mem_filter, List.mem_map, decide_eq_true_eq] at hsn'
  obtain ⟨⟨x, hx, hmark⟩, helim⟩ := hsn'
  obtain ⟨y, hy, hmy⟩ := hx
  subst hmark
  subst hmy
  have hfalse : (markEliminated s.board.width s.board.height
      (s.board.snakes.map (fun sn => (sn.id,
        ((stepSnake s (mv sn) sn).head, (stepSnake s (mv sn) sn).length)))).reverse
      (s.board.snakes.map (fun sn =>
        (sn.id, (stepSnake s (mv sn) sn).body.tail.toFinset))).reverse
      (stepSnake s (mv y) y)).eliminated = false := by
    simpa using helim
  refine ⟨rfl, ?_, ?_, ?_⟩
  · show (stepSnake s (mv y) y).body.head? = some (mv y)
    exact stepSnake_body_head s (mv y) (hbody y hy)
  · show 0 < (stepSnake s (mv y) y).health
    exact markEliminated_health_pos hfalse
  · show (stepSnake s (mv y) y).health ≤ 100
    exact stepSnake_health_le (hcap y hy) hdm

/-- Snake for the C4 counterexample: full health next to a healing hazard. -/
def c4c_snake : Battlesnake :=
  { id := "Y", health := 100,
    body := [{ x := 1, y := 1 }, { x := 1, y := 2 }, { x := 1, y := 3 }],
    head := { x := 1, y := 1 }, length := 3, eliminated := false }

/-- Primary snapshot for the C4 counterexample: standard 5x5 board whose
`hazard_damage_per_turn` is the (type-permitted) negative value -5 with a
hazard on `(1, 0)`. -/
def c4c_base : GameState :=
  { mode := GameMode.Standard, hazard_damage_per_turn := -5, turn := 0,
    board :=
      { height := 5, width := 5, food := ∅, hazards := [{ x := 1, y := 0 }],
        snakes := [c4c_snake], obstacles := ∅, hazard_damage := [], stomps := ∅,
        avoids := ∅, snake_indexes := [] },
    you := c4c_snake, undo_stack := [] }

/-- The C4 counterexample state, with its derived indexes computed. -/
def c4c_state : GameState := computeMetadata c4c_base

/-- C4 counterexample: all agents initially have health at most 100 (exactly
100), yet after the joint move sending the single agent onto the hazard cell
`(1, 0)` — whose accumulated damage is the negative `-5` — the remaining live
agent has health `104 > 100`. -/
theorem c4_counterexample :
    c4c_state.board.snakes.map (fun sn => sn.health) = [100] ∧
    (advance c4c_state [("Y", { x := 1, y := 0 })]).board.snakes.map
      (fun sn => sn.health) = [104] := by
  decide

/-- Snake for the C4 witness. -/
def c4w_snake : Battlesnake :=
  { id := "Y", health := 50, body := [{ x := 1, y := 1 }, { x := 1, y := 2 }],
    head := { x := 1, y := 1 }, length := 2, eliminated := false }

/-- Primary snapshot for the C4 witness: a hazard-free standard 5x5 board. -/
def c4w_base : GameState :=
  { mode := GameMode.Standard, hazard_damage_per_turn := 14, turn := 0,
    board :=
      { height := 5, width := 5, food := ∅, hazards := [], snakes := [c4w_snake],
        obstacles := ∅, hazard_damage := [], stomps := ∅, avoids := ∅,
        snake_indexes := [] },
    you := c4w_snake, undo_stack := [] }

/-- The C4 witness state, with its derived indexes computed. -/
def c4w_state : GameState := computeMetadata c4w_base

/-- The joint move of the C4 witness: every agent steps down. -/
def c4w_mv : Battlesnake → Coord :=
  fun sn => { x := sn.head.x, y := sn.head.y - 1 }

/-- Witness for the amended C4: the invariants evaluated on the surviving
agent of the concrete advance. -/
theorem c4_post_advance_invariants_witness :
    ((advance c4w_state (boardMoves c4w_state c4w_mv)).board.snakes.headD
        c4w_snake).length =
      ((advance c4w_state (boardMoves c4w_state c4w_mv)).board.snakes.headD
        c4w_snake).body.length ∧
    ((advance c4w_state (boardMoves c4w_state c4w_mv)).board.snakes.headD
        c4w_snake).body.head? =
      some ((advance c4w_state (boardMoves c4w_state c4w_mv)).board.snakes.headD
        c4w_snake).head ∧
    0 < ((advance c4w_state (boardMoves c4w_state c4w_mv)).board.snakes.headD
        c4w_snake).health ∧
    ((advance c4w_state (boardMoves c4w_state c4w_mv)).board.snakes.headD
        c4w_snake).health ≤ 100 :=
  c4_post_advance_invariants c4w_state c4w_mv (computeMetadata_idem c4w_base)
    (by decide) (by decide) (by decide) (by decide) _ (by decide)

/-!
Claim C8: disjointness of the territory flood fill's controlled squares.
The invariant: every claimed cell is keyed in `visited` with its claiming
owner, and `visited` is only ever extended at unvisited cells.
-/

/-- Agent `o` controls cell `c` in a `TerritoryInfo`: some entry for `o` in
`controlled_squares` contains `c`. -/
def TerritoryInfo.controls (ti : TerritoryInfo) (o : String) (c : Coord) : Prop :=
  ∃ fs, (o, fs) ∈ ti.controlled_squares ∧ c ∈ fs

/-- The consistency invariant of the territory BFS: every controlled cell is
visited by its controlling owner. -/
def TerrInv (visited : List (Coord × (String × Nat)))
    (controlled : List (String × Finset Coord)) : Prop :=
  ∀ o fs, (o, fs) ∈ controlled → ∀ c ∈ fs, ∃ d, alookup c visited = some (o, d)

lemma amodify_mem [DecidableEq α] {k : α} {f : β → β} :
    ∀ {l : List (α × β)} {p : α × β}, p ∈ amodify k f l →
      p ∈ l ∨ ∃ v, (k, v) ∈ l ∧ p = (k, f v) := by
  intro l
  induction l with
  | nil => intro p hp; simp [amodify] at hp
  | cons q rest ih =>
    intro p hp
    obtain ⟨k', v'⟩ := q
    by_cases hk : k' = k
    · subst hk
      simp only [amodify, if_pos rfl] at hp
      rcases List.mem_cons.mp hp with h1 | h1
      · exact Or.inr ⟨v', List.mem_cons_self _ _, h1⟩
      · exact Or.inl (List.mem_cons_of_mem _ h1)
    · simp only [amodify, if_neg hk] at hp
      rcases List.mem_cons.mp hp with h1 | h1
      · exact Or.inl (h1 ▸ List.mem_cons_self _ _)
      · rcases ih h1 with h2 | ⟨v, hv, hpv⟩
        · exact Or.inl (List.mem_cons_of_mem _ h2)
        · exact Or.inr ⟨v, List.mem_cons_of_mem _ hv, hpv⟩

lemma territoryStepAdj_inv (s : GameState) (owner : String) (distance : Nat)
    (st : List (String × Nat × Coord) × List (Coord × (String × Nat)) ×
      List (String × Finset Coord)) (adjp : Coord × Direction)
    (hinv : TerrInv st.2.1 st.2.2) :
    TerrInv (territoryStepAdj s owner distance st adjp).2.1
      (territoryStepAdj s owner distance st adjp).2.2 := by
  obtain ⟨queue, visited, controlled⟩ := st
  by_cases hv : viable s adjp.1
  swap
  · simpa [territoryStepAdj, hv] using hinv
  by_cases hvis : (alookup adjp.1 visited).isSome
  · simpa [territoryStepAdj, hvis] using hinv
  have hnone : alookup adjp.1 visited = none := Option.not_isSome_iff_eq_none.mp hvis
  cases hfc : findContested visited owner distance (adjacent_moves s adjp.1) with
  | some po =>
    have hred : territoryStepAdj s owner distance (queue, visited, controlled) adjp
        = (queue, visited, amodify po (fun set => set.erase adjp.1) controlled) := by
      simp [territoryStepAdj, hv, hnone, hfc]
    rw [hred]
    intro o fs hfs c hc
    rcases amodify_mem hfs with h1 | ⟨v, hvmem, hpv⟩
    · exact hinv o fs h1 c hc
    · injection hpv with ho hfs2
      subst ho
      subst hfs2
      exact hinv o v hvmem c (Finset.mem_of_mem_erase hc)
  | none =>
    have hred : territoryStepAdj s owner distance (queue, visited, controlled) adjp
        = (queue ++ [(owner, distance + 1, adjp.1)],
           (adjp.1, (owner, distance + 1)) :: visited,
           amodify owner (fun set => insert adjp.1 set) controlled) := by
      simp [territoryStepAdj, hv, hnone, hfc]
    rw [hred]
    intro o fs hfs c hc
    rcases amodify_mem hfs with h1 | ⟨v, hvmem, hpv⟩
    · obtain ⟨d, hd⟩ := hinv o fs h1 c hc
      have hne : ¬ adjp.1 = c := fun he => by
        rw [← he, hnone] at hd
        exact Option.noConfusion hd
      refine ⟨d, ?_⟩
      simpa [alookup, hne] using hd
    · injection hpv with ho hfs2
      subst ho
      subst hfs2
      rcases Finset.mem_insert.mp hc with hceq | hcv
      · subst hceq
        exact ⟨distance + 1, by simp [alookup]⟩
      · obtain ⟨d, hd⟩ := hinv o v hvmem c hcv
        have hne : ¬ adjp.1 = c := fun he => by
          rw [← he, hnone] at hd
          exact Option.noConfusion hd
        refine ⟨d, ?_⟩
        simpa [alookup, hne] using hd

lemma foldl_territoryStepAdj_inv (s : GameState) (owner : String) (distance : Nat) :
    ∀ (l : List (Coord × Direction)) (st),
      TerrInv st.2.1 st.2.2 →
      TerrInv ((l.foldl (territoryStepAdj s owner distance) st)).2.1
        ((l.foldl (territoryStepAdj s owner distance) st)).2.2 := by
  intro l
  induction l with
  | nil => intro st h; simpa using h
  | cons x rest ih =>
    intro st h
    simp only [List.foldl_cons]
    exact ih _ (territoryStepAdj_inv s owner distance st x h)

lemma territoryLoop_inv (s : GameState) :
    ∀ (fuel : Nat) (queue : List (String × Nat × Coord))
      (visited : List (Coord × (String × Nat)))
      (controlled : List (String × Finset Coord)),
      TerrInv visited controlled →
      ∃ visited', TerrInv visited' (territoryLoop s fuel queue visited controlled) := by
  intro fuel
  induction fuel with
  | zero => intro queue visited controlled h; exact ⟨visited, h⟩
  | succ fuel ih =>
    intro queue visited controlled h
    cases queue with
    | nil => exact ⟨visited, h⟩
    | cons q rest =>
      obtain ⟨owner, distance, current⟩ := q
      simp only [territoryLoop]
      exact ih _ _ _ (foldl_territoryStepAdj_inv s owner distance _ _ h)

lemma territoryInit_inv (snakes : List Battlesnake)
    (hheads : (snakes.map (fun sn => sn.head)).Nodup) :
    TerrInv (territoryInit snakes).2.1 (territoryInit snakes).2.2 := by
  suffices h : ∀ (l : List Battlesnake) (st : List (String × Nat × Coord) ×
      List (Coord × (String × Nat)) × List (String × Finset Coord)),
      TerrInv st.2.1 st.2.2 →
      (∀ sn ∈ l, alookup sn.head st.2.1 = none) →
      ((l.map (fun sn => sn.head)).Nodup) →
      TerrInv (l.foldl (fun st sn =>
          (st.1 ++ [(sn.id, 0, sn.head)],
           (sn.head, (sn.id, 0)) :: st.2.1,
           amodify sn.id (fun set => insert sn.head set)
             (ainsert sn.id ∅ st.2.2))) st).2.1
        (l.foldl (fun st sn =>
          (st.1 ++ [(sn.id, 0, sn.head)],
           (sn.head, (sn.id, 0)) :: st.2.1,
           amodify sn.id (fun set => insert sn.head set)
             (ainsert sn.id ∅ st.2.2))) st).2.2 by
    have h2 := h snakes ([], [], []) (by intro o fs hfs c hc; simp at hfs)
      (by intro sn _; rfl) hheads
    have hsame : territoryInit snakes = snakes.foldl (fun st sn =>
        (st.1 ++ [(sn.id, 0, sn.head)],
         (sn.head, (sn.id, 0)) :: st.2.1,
         amodify sn.id (fun set => insert sn.head set)
           (ainsert sn.id ∅ st.2.2))) ([], [], []) := rfl
    rw [hsame]
    exact h2
  intro l
  induction l with
  | nil => intro st h _ _; simpa using h
  | cons x rest ih =>
    intro st hinv hfresh hnd
    simp only [List.map_cons, List.nodup_cons, List.mem_map] at hnd
    simp only [List.foldl_cons]
    apply ih
    · obtain ⟨queue, visited, controlled⟩ := st
      have hxfresh : alookup x.head visited = none := hfresh x (List.mem_cons_self _ _)
      intro o fs hfs c hc
      dsimp only at hfs hc ⊢
      have hamod : amodify x.id (fun set => insert x.head set)
          (ainsert x.id ∅ controlled)
          = (x.id, insert x.head ∅) :: controlled.filter (fun p => ¬ p.1 = x.id) := by
        simp [ainsert, amodify]
      rw [hamod] at hfs
      rcases List.mem_cons.mp hfs with h1 | h1
      · injection h1 with ho hfs2
        subst ho
        subst hfs2
        rcases Finset.mem_insert.mp hc with hceq | hcv
        · subst hceq
          exact ⟨0, by simp [alookup]⟩
        · exact absurd hcv (Finset.not_mem_empty c)
      · obtain ⟨d, hd⟩ := hinv o fs (List.mem_of_mem_filter h1) c hc
        have hne : ¬ x.head = c := fun he => by
          rw [he] at hxfresh
          rw [hxfresh] at hd
          exact Option.noConfusion hd
        exact ⟨d, by simpa [alookup, hne] using hd⟩
    · intro sn hsn
      obtain ⟨queue, visited, controlled⟩ := st
      have hne : ¬ x.head = sn.head := fun he => hnd.1 ⟨sn, hsn, he.symm⟩
      dsimp only
      rw [alookup]
      rw [if_neg hne]
      exact hfresh sn (List.mem_cons_of_mem _ hsn)
    · exact hnd.2

/-- C8: in the `TerritoryInfo` returned by the territory flood fill, no cell
is awarded to two distinct agents: a cell enters a controlled set only
together with a `visited` entry naming its owner, `visited` entries are never
overwritten, and the contested branch only removes cells.  The agents' heads
must be pairwise distinct (live snakes never share a head cell). -/
theorem c8_controlled_squares_disjoint (s : GameState) (fuel : Nat)
    (hheads : (s.board.snakes.map (fun sn => sn.head)).Nodup)
    (o1 o2 : String) (ho : ¬ o1 = o2) (c : Coord) :
    ¬ ((compute_territory_info s fuel).controls o1 c ∧
       (compute_territory_info s fuel).controls o2 c) := by
  rintro ⟨⟨fs1, hfs1, hc1⟩, ⟨fs2, hfs2, hc2⟩⟩
  have hinv0 := territoryInit_inv s.board.snakes hheads
  obtain ⟨v', hinv⟩ := territoryLoop_inv s fuel (territoryInit s.board.snakes).1
    (territoryInit s.board.snakes).2.1 (territoryInit s.board.snakes).2.2 hinv0
  have hfs1' : (o1, fs1) ∈ territoryLoop s fuel (territoryInit s.board.snakes).1
      (territoryInit s.board.snakes).2.1 (territoryInit s.board.snakes).2.2 := hfs1
  have hfs2' : (o2, fs2) ∈ territoryLoop s fuel (territoryInit s.board.snakes).1
      (territoryInit s.board.snakes).2.1 (territoryInit s.board.snakes).2.2 := hfs2
  obtain ⟨d1, hd1⟩ := hinv o1 fs1 hfs1' c hc1
  obtain ⟨d2, hd2⟩ := hinv o2 fs2 hfs2' c hc2
  rw [hd1] at hd2
  injection hd2 with h
  injection h with h1 h2
  exact ho h1

/-- First snake of the C8 witness state. -/
def c8w_a : Battlesnake :=
  { id := "A", health := 100, body := [{ x := 0, y := 0 }], head := { x := 0, y := 0 },
    length := 1, eliminated := false }

/-- Second snake of the C8 witness state. -/
def c8w_b : Battlesnake :=
  { id := "B", health := 100, body := [{ x := 2, y := 2 }], head := { x := 2, y := 2 },
    length := 1, eliminated := false }

/-- C8 witness state: two snakes in opposite corners of a standard 3x3
board. -/
def c8w_state : GameState :=
  { mode := GameMode.Standard, hazard_damage_per_turn := 14, turn := 0,
    board :=
      { height := 3, width := 3, food := ∅, hazards := [], snakes := [c8w_a, c8w_b],
        obstacles := ∅, hazard_damage := [], stomps := ∅, avoids := ∅,
        snake_indexes := [("A", 0), ("B", 1)] },
    you := c8w_a, undo_stack := [] }

/-- Witness for C8 at the concrete two-snake state: `(0, 1)` is not awarded
to both agents. -/
theorem c8_controlled_squares_disjoint_witness :
    ¬ ((compute_territory_info c8w_state 20).controls "A" { x := 0, y := 1 } ∧
       (compute_territory_info c8w_state 20).controls "B" { x := 0, y := 1 }) :=
  c8_controlled_squares_disjoint c8w_state 20 (by decide) "A" "B" (by decide)
    { x := 0, y := 1 }

/-!
Claim C1: `advance` followed by `undo`.
-/

/-- `undo` on a state whose journal has at least one frame, unfolded. -/
lemma undo_cons (s : GameState) (frame : UndoFrame) (rest : List UndoFrame)
    (hstack : s.undo_stack = frame :: rest) :
    undo s = computeMetadata
      { s with
        board := { s.board with
          food := s.board.food ∪ frame.eaten_food,
          snakes := (s.board.snakes ++ frame.eliminated_snakes).map
            (undoSnakeRestore (s.board.food ∪ frame.eaten_food) frame) },
        you := (((s.board.snakes ++ frame.eliminated_snakes).map
          (undoSnakeRestore (s.board.food ∪ frame.eaten_food) frame)).find?
            (fun sn => sn.id = s.you.id)).getD s.you,
        undo_stack := rest } := by
  unfold undo
  rw [hstack]

/-- One agent's move, undone: `undoSnakeRestore` is a left inverse of
`stepSnake` in non-constrictor modes, given the journal entries `advance`
wrote for it, a body of at least two cells, and the agent invariants. -/
lemma undoSnakeRestore_stepSnake (s : GameState) (frame : UndoFrame)
    (nh : Coord) (sn : Battlesnake)
    (hm : ¬ s.mode = GameMode.Constrictor)
    (hb : 2 ≤ sn.body.length)
    (he : sn.eliminated = false)
    (hh : sn.body.head? = some sn.head)
    (hl : sn.length = sn.body.length)
    (ht : alookup sn.id frame.previous_tails = some (poppedTail nh sn))
    (hhp : alookup sn.id frame.previous_health = some sn.health) :
    undoSnakeRestore s.board.food frame (stepSnake s nh sn) = sn := by
  have hbne : sn.body ≠ [] := by
    intro h
    rw [h] at hb
    simp at hb
  have hd1 : (nh :: sn.body).dropLast = nh :: sn.body.dropLast :=
    List.dropLast_cons_of_ne_nil hbne
  have htail : poppedTail nh sn = sn.body.getLastD nh := List.getLastD_cons nh nh sn.body
  have hrest : sn.body.dropLast ++ [sn.body.getLastD nh] = sn.body :=
    dropLast_append_getLastD nh hbne
  have hheadD : ∀ d : Coord, sn.body.dropLast.headD d = sn.head := by
    intro d
    cases hbody : sn.body with
    | nil => exact absurd hbody hbne
    | cons b0 body1 =>
      cases body1 with
      | nil => rw [hbody] at hb; simp at hb
      | cons b1 t =>
        rw [List.dropLast_cons_of_ne_nil (List.cons_ne_nil b1 t), List.headD_cons]
        rw [hbody] at hh
        simpa using hh
  by_cases hf : nh ∈ s.board.food
  · have hstepbody : (stepSnake s nh sn).body
        = (nh :: sn.body.dropLast) ++ [(nh :: sn.body.dropLast).getLastD nh] := by
      simp [stepSnake, hm, hf, hd1]
    have hpop : (stepSnake s nh sn).body.headD (stepSnake s nh sn).head = nh := by
      rw [hstepbody, List.cons_append, List.headD_cons]
    have htl : (stepSnake s nh sn).body.tail
        = sn.body.dropLast ++ [(nh :: sn.body.dropLast).getLastD nh] := by
      rw [hstepbody, List.cons_append, List.tail_cons]
    have hb2 : (if ((stepSnake s nh sn).body.headD (stepSnake s nh sn).head) ∈
          s.board.food then (stepSnake s nh sn).body.tail.dropLast
          else (stepSnake s nh sn).body.tail) = sn.body.dropLast := by
      rw [hpop, if_pos hf, htl, List.dropLast_concat]
    have hbody3 : (undoSnakeRestore s.board.food frame (stepSnake s nh sn)).body
        = sn.body := by
      show (if ((stepSnake s nh sn).body.headD (stepSnake s nh sn).head) ∈
          s.board.food then (stepSnake s nh sn).body.tail.dropLast
          else (stepSnake s nh sn).body.tail) ++
          [(alookup (stepSnake s nh sn).id frame.previous_tails).getD
            ((stepSnake s nh sn).body.headD (stepSnake s nh sn).head)] = sn.body
      rw [hb2, hpop, stepSnake_id, ht, Option.getD_some, htail]
      exact hrest
    have hhead3 : (undoSnakeRestore s.board.food frame (stepSnake s nh sn)).head
        = sn.head := by
      show (if ((stepSnake s nh sn).body.headD (stepSnake s nh sn).head) ∈
          s.board.food then (stepSnake s nh sn).body.tail.dropLast
          else (stepSnake s nh sn).body.tail).headD
          ((stepSnake s nh sn).body.headD (stepSnake s nh sn).head) = sn.head
      rw [hb2, hpop]
      exact hheadD nh
    have hhealth3 : (undoSnakeRestore s.board.food frame (stepSnake s nh sn)).health
        = sn.health := by
      show (alookup (stepSnake s nh sn).id frame.previous_health).getD
        (stepSnake s nh sn).health = sn.health
      rw [stepSnake_id, hhp, Option.getD_some]
    have hlen3 : (undoSnakeRestore s.board.food frame (stepSnake s nh sn)).length
        = sn.length := by
      show (undoSnakeRestore s.board.food frame (stepSnake s nh sn)).body.length
        = sn.length
      rw [hbody3, hl]
    have hel3 : (undoSnakeRestore s.board.food frame (stepSnake s nh sn)).eliminated
        = sn.eliminated := by
      rw [he]
      rfl
    exact Battlesnake.ext rfl hhealth3 hbody3 hhead3 hlen3 hel3
  · have hstepbody : (stepSnake s nh sn).body = nh :: sn.body.dropLast := by
      simp [stepSnake, hm, hf, hd1]
    have hpop : (stepSnake s nh sn).body.headD (stepSnake s nh sn).head = nh := by
      rw [hstepbody, List.headD_cons]
    have htl : (stepSnake s nh sn).body.tail = sn.body.dropLast := by
      rw [hstepbody, List.tail_cons]
    have hb2 : (if ((stepSnake s nh sn).body.headD (stepSnake s nh sn).head) ∈
          s.board.food then (stepSnake s nh sn).body.tail.dropLast
          else (stepSnake s nh sn).body.tail) = sn.body.dropLast := by
      rw [hpop, if_neg hf, htl]
    have hbody3 : (undoSnakeRestore s.board.food frame (stepSnake s nh sn)).body
        = sn.body := by
      show (if ((stepSnake s nh sn).body.headD (stepSnake s nh sn).head) ∈
          s.board.food then (stepSnake s nh sn).body.tail.dropLast
          else (stepSnake s nh sn).body.tail) ++
          [(alookup (stepSnake s nh sn).id frame.previous_tails).getD
            ((stepSnake s nh sn).body.headD (stepSnake s nh sn).head)] = sn.body
      rw [hb2, hpop, stepSnake_id, ht, Option.getD_some, htail]
      exact hrest
    have hhead3 : (undoSnakeRestore s.board.food frame (stepSnake s nh sn)).head
        = sn.head := by
      show (if ((stepSnake s nh sn).body.headD (stepSnake s nh sn).head) ∈
          s.board.food then (stepSnake s nh sn).body.tail.dropLast
          else (stepSnake s nh sn).body.tail).headD
          ((stepSnake s nh sn).body.headD (stepSnake s nh sn).head) = sn.head
      rw [hb2, hpop]
      exact hheadD nh
    have hhealth3 : (undoSnakeRestore s.board.food frame (stepSnake s nh sn)).health
        = sn.health := by
      show (alookup (stepSnake s nh sn).id frame.previous_health).getD
        (stepSnake s nh sn).health = sn.health
      rw [stepSnake_id, hhp, Option.getD_some]
    have hlen3 : (undoSnakeRestore s.board.food frame (stepSnake s nh sn)).length
        = sn.length := by
      show (undoSnakeRestore s.board.food frame (stepSnake s nh sn)).body.length
        = sn.length
      rw [hbody3, hl]
    have hel3 : (undoSnakeRestore s.board.food frame (stepSnake s nh sn)).eliminated
        = sn.eliminated := by
      rw [he]
      rfl
    exact Battlesnake.ext rfl hhealth3 hbody3 hhead3 hlen3 hel3

lemma alookup_reverse_map_of_nodup {β : Type} {g : Battlesnake → β} {S : List Battlesnake}
    (hnd : (S.map (fun sn => sn.id)).Nodup) {x : Battlesnake} (hx : x ∈ S) :
    alookup x.id ((S.map (fun sn => (sn.id, g sn))).reverse) = some (g x) := by
  apply alookup_of_mem_nodup
  · rw [List.map_reverse, List.nodup_reverse, List.map_map]
    exact hnd
  · rw [List.mem_reverse]
    exact List.mem_map.mpr ⟨x, hx, rfl⟩

/-- `advance` on a board-order joint move that eliminates nobody: every snake
is stepped in place, the eaten food is removed, the controlled-snake
projection is stepped, and one journal frame (with no eliminated snakes) is
pushed. -/
lemma advance_boardOrder_no_elim (s : GameState) (mv : Battlesnake → Coord)
    (hmeta : computeMetadata s = s)
    (hnd : (s.board.snakes.map (fun sn => sn.id)).Nodup)
    (hlive : ∀ sn ∈ s.board.snakes, sn.eliminated = false)
    (hyou : s.board.snakes.find? (fun sn => sn.id = s.you.id) = some s.you)
    (hnoelim : (advance s (boardMoves s mv)).board.snakes.length
      = s.board.snakes.length) :
    advance s (boardMoves s mv) = computeMetadata
      { s with
        board := { s.board with
          food := s.board.food \ eatenOf s mv,
          snakes := s.board.snakes.map (fun sn => stepSnake s (mv sn) sn) },
        you := stepSnake s (mv s.you) s.you,
        undo_stack :=
          { previous_tails :=
              (s.board.snakes.map
                (fun sn => (sn.id, poppedTail (mv sn) sn))).reverse,
            previous_health :=
              (s.board.snakes.map (fun sn => (sn.id, sn.health))).reverse,
            eaten_food := eatenOf s mv,
            eliminated_snakes := [] } :: s.undo_stack } := by
  have hfull := applyMovesGo_full s mv (snake_indexes_of_metadata hmeta) hnd
  have hA1 : (applyMovesGo s (boardMoves s mv)
      { snakes := s.board.snakes, prev_tails := [], prev_health := [],
        eaten := ∅, snake_heads := [], snake_bodies := [] }).snakes
      = s.board.snakes.map (fun sn => stepSnake s (mv sn) sn) := by rw [hfull]
  have hA2 : (applyMovesGo s (boardMoves s mv)
      { snakes := s.board.snakes, prev_tails := [], prev_health := [],
        eaten := ∅, snake_heads := [], snake_bodies := [] }).snake_heads
      = (s.board.snakes.map (fun sn => (sn.id,
          ((stepSnake s (mv sn) sn).head, (stepSnake s (mv sn) sn).length)))).reverse :=
    by rw [hfull]
  have hA3 : (applyMovesGo s (boardMoves s mv)
      { snakes := s.board.snakes, prev_tails := [], prev_health := [],
        eaten := ∅, snake_heads := [], snake_bodies := [] }).snake_bodies
      = (s.board.snakes.map (fun sn =>
          (sn.id, (stepSnake s (mv sn) sn).body.tail.toFinset))).reverse :=
    by rw [hfull]
  have hA4 : (applyMovesGo s (boardMoves s mv)
      { snakes := s.board.snakes, prev_tails := [], prev_health := [],
        eaten := ∅, snake_heads := [], snake_bodies := [] }).eaten
      = eatenOf s mv := by rw [hfull]
  have hA5 : (applyMovesGo s (boardMoves s mv)
      { snakes := s.board.snakes, prev_tails := [], prev_health := [],
        eaten := ∅, snake_heads := [], snake_bodies := [] }).prev_tails
      = (s.board.snakes.map (fun sn => (sn.id, poppedTail (mv sn) sn))).reverse :=
    by rw [hfull]
  have hA6 : (applyMovesGo s (boardMoves s mv)
      { snakes := s.board.snakes, prev_tails := [], prev_health := [],
        eaten := ∅, snake_heads := [], snake_bodies := [] }).prev_health
      = (s.board.snakes.map (fun sn => (sn.id, sn.health))).reverse := by rw [hfull]
  have hflags : ∀ z ∈ s.board.snakes.map (fun sn => stepSnake s (mv sn) sn),
      z.eliminated = false := by
    intro z hz
    obtain ⟨x, hx, rfl⟩ := List.mem_map.mp hz
    rw [stepSnake_eliminated]
    exact hlive x hx
  have hlenfact : (((s.board.snakes.map (fun sn => stepSnake s (mv sn) sn)).map
      (markEliminated s.board.width s.board.height
        (s.board.snakes.map (fun sn => (sn.id,
          ((stepSnake s (mv sn) sn).head, (stepSnake s (mv sn) sn).length)))).reverse
        (s.board.snakes.map (fun sn =>
          (sn.id, (stepSnake s (mv sn) sn).body.tail.toFinset))).reverse)).filter
      (fun z => ¬ z.eliminated)).length = s.board.snakes.length := by
    have h0 : (((applyMovesGo s (boardMoves s mv)
        { snakes := s.board.snakes, prev_tails := [], prev_health := [],
          eaten := ∅, snake_heads := [], snake_bodies := [] }).snakes.map
        (markEliminated s.board.width s.board.height
          (applyMovesGo s (boardMoves s mv)
            { snakes := s.board.snakes, prev_tails := [], prev_health := [],
              eaten := ∅, snake_heads := [], snake_bodies := [] }).snake_heads
          (applyMovesGo s (boardMoves s mv)
            { snakes := s.board.snakes, prev_tails := [], prev_health := [],
              eaten := ∅, snake_heads := [], snake_bodies := [] }).snake_bodies)).filter
        (fun z => ¬ z.eliminated)).length = s.board.snakes.length := hnoelim
    rw [hA1, hA2, hA3] at h0
    exact h0
  have hallfalse : ∀ y ∈ (s.board.snakes.map (fun sn => stepSnake s (mv sn) sn)).map
      (markEliminated s.board.width s.board.height
        (s.board.snakes.map (fun sn => (sn.id,
          ((stepSnake s (mv sn) sn).head, (stepSnake s (mv sn) sn).length)))).reverse
        (s.board.snakes.map (fun sn =>
          (sn.id, (stepSnake s (mv sn) sn).body.tail.toFinset))).reverse),
      y.eliminated = false := by
    have hsub := List.filter_sublist (p := fun z : Battlesnake => ¬ z.eliminated)
      ((s.board.snakes.map (fun sn => stepSnake s (mv sn) sn)).map
        (markEliminated s.board.width s.board.height
          (s.board.snakes.map (fun sn => (sn.id,
            ((stepSnake s (mv sn) sn).head, (stepSnake s (mv sn) sn).length)))).reverse
          (s.board.snakes.map (fun sn =>
            (sn.id, (stepSnake s (mv sn) sn).body.tail.toFinset))).reverse))
    have heq := hsub.eq_of_length (by rw [hlenfact]; simp)
    intro y hy
    have := List.filter_eq_self.mp heq y hy
    simpa using this
  have hcollapse : (s.board.snakes.map (fun sn => stepSnake s (mv sn) sn)).map
      (markEliminated s.board.width s.board.height
        (s.board.snakes.map (fun sn => (sn.id,
          ((stepSnake s (mv sn) sn).head, (stepSnake s (mv sn) sn).length)))).reverse
        (s.board.snakes.map (fun sn =>
          (sn.id, (stepSnake s (mv sn) sn).body.tail.toFinset))).reverse)
      = s.board.snakes.map (fun sn => stepSnake s (mv sn) sn) := by
    have hpt : ∀ z ∈ s.board.snakes.map (fun sn => stepSnake s (mv sn) sn),
        markEliminated s.board.width s.board.height
          (s.board.snakes.map (fun sn => (sn.id,
            ((stepSnake s (mv sn) sn).head, (stepSnake s (mv sn) sn).length)))).reverse
          (s.board.snakes.map (fun sn =>
            (sn.id, (stepSnake s (mv sn) sn).body.tail.toFinset))).reverse z = z := by
      intro z hz
      exact markEliminated_eq_self (hallfalse _ (List.mem_map_of_mem _ hz))
    rw [List.map_congr_left hpt]
    exact List.map_id' _
  have key : advance s (boardMoves s mv) = computeMetadata
      { s with
        board := { s.board with
          food := s.board.food \ (applyMovesGo s (boardMoves s mv)
            { snakes := s.board.snakes, prev_tails := [], prev_health := [],
              eaten := ∅, snake_heads := [], snake_bodies := [] }).eaten,
          snakes := (((applyMovesGo s (boardMoves s mv)
            { snakes := s.board.snakes, prev_tails := [], prev_health := [],
              eaten := ∅, snake_heads := [], snake_bodies := [] }).snakes.map
            (markEliminated s.board.width s.board.height
              (applyMovesGo s (boardMoves s mv)
                { snakes := s.board.snakes, prev_tails := [], prev_health := [],
                  eaten := ∅, snake_heads := [], snake_bodies := [] }).snake_heads
              (applyMovesGo s (boardMoves s mv)
                { snakes := s.board.snakes, prev_tails := [], prev_health := [],
                  eaten := ∅, snake_heads := [], snake_bodies := [] }).snake_bodies)).filter
            (fun z => ¬ z.eliminated)) },
        you := (((applyMovesGo s (boardMoves s mv)
            { snakes := s.board.snakes, prev_tails := [], prev_health := [],
              eaten := ∅, snake_heads := [], snake_bodies := [] }).snakes.map
            (markEliminated s.board.width s.board.height
              (applyMovesGo s (boardMoves s mv)
                { snakes := s.board.snakes, prev_tails := [], prev_health := [],
                  eaten := ∅, snake_heads := [], snake_bodies := [] }).snake_heads
              (applyMovesGo s (boardMoves s mv)
                { snakes := s.board.snakes, prev_tails := [], prev_health := [],
                  eaten := ∅, snake_heads := [], snake_bodies := [] }).snake_bodies)).find?
            (fun sn => sn.id = s.you.id)).getD s.you,
        undo_stack :=
          { previous_tails := (applyMovesGo s (boardMoves s mv)
              { snakes := s.board.snakes, prev_tails := [], prev_health := [],
                eaten := ∅, snake_heads := [], snake_bodies := [] }).prev_tails,
            previous_health := (applyMovesGo s (boardMoves s mv)
              { snakes := s.board.snakes, prev_tails := [], prev_health := [],
                eaten := ∅, snake_heads := [], snake_bodies := [] }).prev_health,
            eaten_food := (applyMovesGo s (boardMoves s mv)
              { snakes := s.board.snakes, prev_tails := [], prev_health := [],
                eaten := ∅, snake_heads := [], snake_bodies := [] }).eaten,
            eliminated_snakes := (((applyMovesGo s (boardMoves s mv)
              { snakes := s.board.snakes, prev_tails := [], prev_health := [],
                eaten := ∅, snake_heads := [], snake_bodies := [] }).snakes.map
              (markEliminated s.board.width s.board.height
                (applyMovesGo s (boardMoves s mv)
                  { snakes := s.board.snakes, prev_tails := [], prev_health := [],
                    eaten := ∅, snake_heads := [], snake_bodies := [] }).snake_heads
                (applyMovesGo s (boardMoves s mv)
                  { snakes := s.board.snakes, prev_tails := [], prev_health := [],
                    eaten := ∅, snake_heads := [],
                    snake_bodies := [] }).snake_bodies)).filter
              (fun z => z.eliminated)) } :: s.undo_stack } := rfl
  rw [key]
  apply computeMetadata_congr
  · rfl
  · rfl
  · rfl
  · rfl
  · rfl
  · rw [hA4]
  · rfl
  · rw [hA1, hA2, hA3, hcollapse, List.filter_eq_self]
    intro z hz
    simp [hflags z hz]
  · rw [hA1, hA2, hA3, hcollapse, List.find?_map]
    have hpc : ((fun sn : Battlesnake => decide (sn.id = s.you.id)) ∘
        (fun sn => stepSnake s (mv sn) sn))
        = (fun sn : Battlesnake => decide (sn.id = s.you.id)) := funext (fun sn => rfl)
    rw [hpc, hyou]
    rfl
  · rw [hA1, hA2, hA3, hA4, hA5, hA6, hcollapse]
    have helim : (s.board.snakes.map (fun sn => stepSnake s (mv sn) sn)).filter
        (fun z => z.eliminated) = [] := by
      rw [List.filter_eq_nil]
      intro z hz
      simp [hflags z hz]
    rw [helim]

/-- C1 (amended): in non-constrictor modes, from a metadata-consistent state
with distinct snake ids, bodies of at least two cells, the per-agent
invariants (`head = body[0]`, `length = |body|`, live flag clear), the
controlled snake present in the live list, and a board-order joint move
whose `advance` eliminates no agent, `advance` followed by `undo` restores
the state exactly — food set, hazards, every agent's body order, health,
head, length, the live-list order, the controlled-snake projection, the undo
journal and all derived indexes. -/
theorem c1_advance_undo_roundtrip (s : GameState) (mv : Battlesnake → Coord)
    (hmode : ¬ s.mode = GameMode.Constrictor)
    (hmeta : computeMetadata s = s)
    (hnd : (s.board.snakes.map (fun sn => sn.id)).Nodup)
    (hbody : ∀ sn ∈ s.board.snakes, 2 ≤ sn.body.length)
    (hlive : ∀ sn ∈ s.board.snakes, sn.eliminated = false)
    (hhead : ∀ sn ∈ s.board.snakes, sn.body.head? = some sn.head)
    (hlen : ∀ sn ∈ s.board.snakes, sn.length = sn.body.length)
    (hyou : s.board.snakes.find? (fun sn => sn.id = s.you.id) = some s.you)
    (hnoelim : (advance s (boardMoves s mv)).board.snakes.length
      = s.board.snakes.length) :
    undo (advance s (boardMoves s mv)) = s := by
  have hfoodU : (s.board.food \ eatenOf s mv) ∪ eatenOf s mv = s.board.food :=
    Finset.sdiff_union_of_subset (eatenOf_subset s mv)
  have hrestoremap :
      ((s.board.snakes.map (fun sn => stepSnake s (mv sn) sn)) ++
          ([] : List Battlesnake)).map
        (undoSnakeRestore ((s.board.food \ eatenOf s mv) ∪ eatenOf s mv)
          { previous_tails :=
              (s.board.snakes.map (fun sn => (sn.id, poppedTail (mv sn) sn))).reverse,
            previous_health :=
              (s.board.snakes.map (fun sn => (sn.id, sn.health))).reverse,
            eaten_food := eatenOf s mv,
            eliminated_snakes := [] }) = s.board.snakes := by
    rw [List.append_nil, hfoodU, List.map_map]
    have hpt : ∀ x ∈ s.board.snakes,
        (undoSnakeRestore s.board.food
          { previous_tails :=
              (s.board.snakes.map (fun sn => (sn.id, poppedTail (mv sn) sn))).reverse,
            previous_health :=
              (s.board.snakes.map (fun sn => (sn.id, sn.health))).reverse,
            eaten_food := eatenOf s mv,
            eliminated_snakes := [] } ∘ (fun sn => stepSnake s (mv sn) sn)) x = x := by
      intro x hx
      show undoSnakeRestore s.board.food
          { previous_tails :=
              (s.board.snakes.map (fun sn => (sn.id, poppedTail (mv sn) sn))).reverse,
            previous_health :=
              (s.board.snakes.map (fun sn => (sn.id, sn.health))).reverse,
            eaten_food := eatenOf s mv,
            eliminated_snakes := [] } (stepSnake s (mv x) x) = x
      exact undoSnakeRestore_stepSnake s _ (mv x) x hmode (hbody x hx) (hlive x hx)
        (hhead x hx) (hlen x hx)
        (alookup_reverse_map_of_nodup hnd hx)
        (alookup_reverse_map_of_nodup hnd hx)
    rw [List.map_congr_left hpt]
    exact List.map_id' _
  rw [advance_boardOrder_no_elim s mv hmeta hnd hlive hyou hnoelim]
  rw [undo_cons _ _ _ rfl]
  conv_rhs => rw [← hmeta]
  apply computeMetadata_congr
  · rfl
  · rfl
  · rfl
  · rfl
  · rfl
  · show (s.board.food \ eatenOf s mv) ∪ eatenOf s mv = s.board.food
    exact hfoodU
  · rfl
  · show ((s.board.snakes.map (fun sn => stepSnake s (mv sn) sn)) ++
        ([] : List Battlesnake)).map
        (undoSnakeRestore ((s.board.food \ eatenOf s mv) ∪ eatenOf s mv)
          { previous_tails :=
              (s.board.snakes.map (fun sn => (sn.id, poppedTail (mv sn) sn))).reverse,
            previous_health :=
              (s.board.snakes.map (fun sn => (sn.id, sn.health))).reverse,
            eaten_food := eatenOf s mv,
            eliminated_snakes := [] }) = s.board.snakes
    exact hrestoremap
  · show (((((s.board.snakes.map (fun sn => stepSnake s (mv sn) sn)) ++
        ([] : List Battlesnake)).map
        (undoSnakeRestore ((s.board.food \ eatenOf s mv) ∪ eatenOf s mv)
          { previous_tails :=
              (s.board.snakes.map (fun sn => (sn.id, poppedTail (mv sn) sn))).reverse,
            previous_health :=
              (s.board.snakes.map (fun sn => (sn.id, sn.health))).reverse,
            eaten_food := eatenOf s mv,
            eliminated_snakes := [] })).find?
        (fun sn => sn.id = s.you.id)).getD (stepSnake s (mv s.you) s.you)) = s.you
    rw [hrestoremap, hyou]
    rfl
  · rfl

/-- Snake for the C1 constrictor counterexample. -/
def c1c_snake : Battlesnake :=
  { id := "Y", health := 100, body := [{ x := 1, y := 1 }, { x := 1, y := 2 }],
    head := { x := 1, y := 1 }, length := 2, eliminated := false }

/-- Primary snapshot for the C1 counterexample: a 5x5 constrictor board with
a single snake. -/
def c1c_base : GameState :=
  { mode := GameMode.Constrictor, hazard_damage_per_turn := 14, turn := 0,
    board :=
      { height := 5, width := 5, food := ∅, hazards := [], snakes := [c1c_snake],
        obstacles := ∅, hazard_damage := [], stomps := ∅, avoids := ∅,
        snake_indexes := [] },
    you := c1c_snake, undo_stack := [] }

/-- The C1 counterexample state, with its derived indexes computed. -/
def c1c_state : GameState := computeMetadata c1c_base

/-- C1 counterexample: in constrictor mode, advancing the single snake from
`(1,1)` to `(1,0)` and undoing does not restore the state: `advance` pushed
an extra tail copy (`body` becomes `[(1,0),(1,1),(1,1)]`) which `undo` never
removes, so the snake comes back with body `[(1,1),(1,1),(1,2)]` instead of
`[(1,1),(1,2)]`. -/
theorem c1_counterexample :
    ¬ undo (advance c1c_state [("Y", { x := 1, y := 0 })]) = c1c_state := by
  intro h
  have hb := congrArg (fun st => st.board.snakes.map (fun sn => sn.body)) h
  exact absurd hb (by decide)

/-- Snake for the C1 witness. -/
def c1w_snake : Battlesnake :=
  { id := "Y", health := 50, body := [{ x := 1, y := 1 }, { x := 1, y := 2 }],
    head := { x := 1, y := 1 }, length := 2, eliminated := false }

/-- Primary snapshot for the C1 witness: a standard 5x5 board with a single
snake. -/
def c1w_base : GameState :=
  { mode := GameMode.Standard, hazard_damage_per_turn := 14, turn := 0,
    board :=
      { height := 5, width := 5, food := ∅, hazards := [], snakes := [c1w_snake],
        obstacles := ∅, hazard_damage := [], stomps := ∅, avoids := ∅,
        snake_indexes := [] },
    you := c1w_snake, undo_stack := [] }

/-- The C1 witness state, with its derived indexes computed. -/
def c1w_state : GameState := computeMetadata c1w_base

/-- The joint move of the C1 witness: every agent steps down. -/
def c1w_mv : Battlesnake → Coord :=
  fun sn => { x := sn.head.x, y := sn.head.y - 1 }

/-- Witness for the amended C1 at the concrete standard-mode state. -/
theorem c1_advance_undo_roundtrip_witness :
    undo (advance c1w_state (boardMoves c1w_state c1w_mv)) = c1w_state :=
  c1_advance_undo_roundtrip c1w_state c1w_mv (by decide)
    (computeMetadata_idem c1w_base) (by decide) (by decide) (by decide) (by decide)
    (by decide) (by decide) (by decide)
